import Mathlib

/-!
Shallow embedding of the AgentForger command-dispatch and phase-pipeline
engine (JavaScript), for checking the natural-language specification.

Sources embedded:
- `src/.system/hooks/workflows/base.js`     — `BaseWorkflow` (phase pipeline)
- `src/.system/hooks/workflows/message.js`  — `MessageWorkflow`
- `src/.system/hooks/workflows/meta.js`     — `MetaWorkflow`
- `src/.system/hooks/workflows/output.js`   — `OutputWorkflow`
- `src/.system/hooks/workflows/critic.js`   — `CriticWorkflow`
- `src/.system/hooks/core/orchestrator.js`  — `SystemWorkflow` (second document)
- `src/unnamed/part_007` — `Orchestrator` (variant with duplicate `initialize`)
- `src/unnamed/part_008` — `Orchestrator` (variant with global context store,
  settings and `--save` trace writing)
- `src/unnamed/part_009` — `MessageWorkflow` (variant with required-parameter
  check in `handleNewMessage`)
- `src/unnamed/part_010` — `AgentWorkflow`

JavaScript dynamic values are modelled by the inductive `Value`; JS objects by
association lists (`JSObj`) whose operations mirror property get / set /
delete.  `new Date().toISOString()` is modelled by a clock string `ts` held in
`World`; the file system and agent-persona directory are modelled as
`World` fields (they are external collaborators per spec §6).
-/

namespace AgentForger

/-- JavaScript runtime values (the fragment used by this program). -/
inductive Value where
  | vUndefined : Value
  | vNull : Value
  | vBool : Bool → Value
  | vNum : Nat → Value
  | vStr : String → Value
  | vArr : List Value → Value
  | vObj : List (String × Value) → Value
deriving Repr

mutual

def Value.beq : Value → Value → Bool
  | .vUndefined, .vUndefined => true
  | .vNull, .vNull => true
  | .vBool a, .vBool b => a == b
  | .vNum a, .vNum b => a == b
  | .vStr a, .vStr b => a == b
  | .vArr a, .vArr b => Value.beqList a b
  | .vObj a, .vObj b => Value.beqFields a b
  | _, _ => false

def Value.beqList : List Value → List Value → Bool
  | [], [] => true
  | a :: as, b :: bs => Value.beq a b && Value.beqList as bs
  | _, _ => false

def Value.beqFields : List (String × Value) → List (String × Value) → Bool
  | [], [] => true
  | (ka, va) :: as, (kb, vb) :: bs => ka == kb && Value.beq va vb && Value.beqFields as bs
  | _, _ => false

end

mutual

theorem Value.beq_refl : (v : Value) → Value.beq v v = true
  | .vUndefined => rfl
  | .vNull => rfl
  | .vBool b => by simp [Value.beq]
  | .vNum n => by simp [Value.beq]
  | .vStr s => by simp [Value.beq]
  | .vArr xs => by simp [Value.beq, Value.beqList_refl xs]
  | .vObj fs => by simp [Value.beq, Value.beqFields_refl fs]

theorem Value.beqList_refl : (xs : List Value) → Value.beqList xs xs = true
  | [] => rfl
  | x :: xs => by simp [Value.beqList, Value.beq_refl x, Value.beqList_refl xs]

theorem Value.beqFields_refl : (fs : List (String × Value)) → Value.beqFields fs fs = true
  | [] => rfl
  | (k, v) :: fs => by simp [Value.beqFields, Value.beq_refl v, Value.beqFields_refl fs]

end

mutual

theorem Value.eq_of_beq : {a b : Value} → Value.beq a b = true → a = b
  | .vUndefined, .vUndefined, _ => rfl
  | .vNull, .vNull, _ => rfl
  | .vBool a, .vBool b, h => by simp [Value.beq] at h; simp [h]
  | .vNum a, .vNum b, h => by simp [Value.beq] at h; simp [h]
  | .vStr a, .vStr b, h => by simp [Value.beq] at h; simp [h]
  | .vArr a, .vArr b, h => by
      simp only [Value.beq] at h
      exact congrArg Value.vArr (Value.eqList_of_beq h)
  | .vObj a, .vObj b, h => by
      simp only [Value.beq] at h
      exact congrArg Value.vObj (Value.eqFields_of_beq h)

theorem Value.eqList_of_beq : {as bs : List Value} → Value.beqList as bs = true → as = bs
  | [], [], _ => rfl
  | a :: as, b :: bs, h => by
      simp only [Value.beqList, Bool.and_eq_true] at h
      rw [Value.eq_of_beq h.1, Value.eqList_of_beq h.2]

theorem Value.eqFields_of_beq : {as bs : List (String × Value)} →
    Value.beqFields as bs = true → as = bs
  | [], [], _ => rfl
  | (ka, va) :: as, (kb, vb) :: bs, h => by
      simp only [Value.beqFields, Bool.and_eq_true] at h
      obtain ⟨⟨hk, hv⟩, hs⟩ := h
      have hk' : ka = kb := by simpa using hk
      rw [hk', Value.eq_of_beq hv, Value.eqFields_of_beq hs]

end

instance : DecidableEq Value := fun a b =>
  if h : Value.beq a b then .isTrue (Value.eq_of_beq h)
  else .isFalse (fun hab => h (hab ▸ Value.beq_refl a))

/-- JavaScript truthiness on `Value`. -/
def truthy : Value → Bool
  | .vUndefined => false
  | .vNull => false
  | .vBool b => b
  | .vNum n => n != 0
  | .vStr s => s != ""
  | .vArr _ => true
  | .vObj _ => true

/-- JavaScript string coercion (as used in this program's template literals). -/
def jsToString : Value → String
  | .vUndefined => "undefined"
  | .vNull => "null"
  | .vBool b => if b then "true" else "false"
  | .vNum n => toString n
  | .vStr s => s
  | .vArr _ => ""
  | .vObj _ => "[object Object]"

/-! ### String operations
(Structurally recursive forms of the JS string methods used by the program,
so that concrete runs evaluate inside the kernel.) -/

/-- The groups of characters between occurrences of `sep`
(`String.prototype.split` with a single-character separator). -/
def splitChars (sep : Char) : List Char → List (List Char)
  | [] => [[]]
  | ch :: rest =>
    match splitChars sep rest with
    | [] => [[]]
    | g :: gs => if ch = sep then [] :: g :: gs else (ch :: g) :: gs

/-- Embeds `s.split(sep)` for a one-character separator. -/
def jsSplit (s : String) (sep : Char) : List String :=
  (splitChars sep s.data).map String.mk

/-- Embeds `s.startsWith(pre)`. -/
def jsStartsWith (s pre : String) : Bool :=
  pre.data.isPrefixOf s.data

/-- Embeds `s.endsWith(post)`. -/
def jsEndsWith (s post : String) : Bool :=
  post.data.isSuffixOf s.data

def isJsSpace (ch : Char) : Bool :=
  ch == ' ' || ch == '\t' || ch == '\n' || ch == '\r'

/-- Embeds `s.trim()`. -/
def jsTrim (s : String) : String :=
  String.mk (((s.data.dropWhile isJsSpace).reverse.dropWhile isJsSpace).reverse)

/-- Embeds `s.toUpperCase()` (ASCII, as used on the domain names here). -/
def jsToUpper (s : String) : String :=
  String.mk (s.data.map Char.toUpper)

/-- A JavaScript object: ordered association list of properties. -/
abbrev JSObj := List (String × Value)

/-- Property read (`o[k]`); absent properties read as `undefined`.
(JS object keys are unique; the first binding is the binding.) -/
def oget (o : JSObj) (k : String) : Value :=
  match o with
  | [] => .vUndefined
  | (k', v) :: rest => if k' == k then v else oget rest k

/-- Property write (`o[k] = v`): update in place if present, else append. -/
def oset (o : JSObj) (k : String) (v : Value) : JSObj :=
  match o with
  | [] => [(k, v)]
  | (k', v') :: rest => if k' == k then (k, v) :: rest else (k', v') :: oset rest k v

/-- Property delete (`delete o[k]`). -/
def odel (o : JSObj) (k : String) : JSObj :=
  o.filter (fun kv => kv.1 != k)

/-- View a `Value` as an object's field list (non-objects have none). -/
def asObj : Value → JSObj
  | .vObj fs => fs
  | _ => []

/-- View a `Value` as a string (all uses in the program are on strings). -/
def asStr : Value → String
  | .vStr s => s
  | _ => ""

/-- Embeds `context.params[k]` — read a command parameter out of an execution context. -/
def paramGet (c : JSObj) (k : String) : Value :=
  oget (asObj (oget c "params")) k

/-- A Global Context Store entry (`{command, content, timestamp}`),
as pushed by `part_008`'s `executeCommand` and `meta.js`'s `handleContext`. -/
structure Entry where
  command : String
  content : Value
  timestamp : String
deriving Repr, DecidableEq

def entryToValue (e : Entry) : Value :=
  .vObj [("command", .vStr e.command), ("content", e.content),
         ("timestamp", .vStr e.timestamp)]

/-- Session settings (`this.settings` on the orchestrator). -/
structure Settings where
  activeAgent : String
  verbosity : String
  format : String
deriving Repr, DecidableEq

/-- Embeds `loadDefaultSettings` from `part_007`/`part_008` (the config-file reads
there only log; they never change the returned defaults). -/
def loadDefaultSettings : Settings :=
  { activeAgent := "discussion-moderator", verbosity := "off", format := "text" }

/-- The ambient mutable world threaded through a dispatch: the Global Context
Store, the Session Settings, the clock (`new Date().toISOString()`), and the
external file system collaborators (spec §6). -/
structure World where
  store : List Entry
  settings : Settings
  ts : String
  fsExists : String → Bool
  agentsDirList : List (String × String)

/-- A phase handler: phase name → world → execution context →
thrown error, or (world, context, phase return value). -/
abbrev Handler := String → World → JSObj → Except String (World × JSObj × Value)

/-- Embeds `this.phases` from `base.js`. -/
def PHASES : List String :=
  ["initialization", "parameters", "workflow", "validation", "output"]

/-- Embeds `context.phaseResults[phase] = result` from `base.js` `executePipeline`. -/
def recordPhase (c : JSObj) (p : String) (v : Value) : JSObj :=
  oset c "phaseResults" (.vObj (oset (asObj (oget c "phaseResults")) p v))

/-- Outcome of running a phase list: which phases completed normally, which
phase (if any) threw, the final world, and the final context or the error. -/
structure PipeRun where
  completed : List String
  aborted : Option String
  world : World
  res : Except String JSObj

/-- The phase loop of `base.js` `executePipeline`, instrumented with the list
of phases whose handler returned normally (`completed`) and the phase whose
handler threw (`aborted`). -/
def runPhases (h : Handler) : List String → World → JSObj → PipeRun
  | [], w, c => ⟨[], none, w, .ok c⟩
  | p :: ps, w, c =>
    match h p w c with
    | .error e => ⟨[], some p, w, .error e⟩
    | .ok (w', c', v) =>
      let r := runPhases h ps w' (recordPhase c' p v)
      ⟨p :: r.completed, r.aborted, r.world, r.res⟩

/-- Result of `executePipeline`: phase trace, final world, and either the
thrown error or (final context, returned value). -/
structure PipeOut where
  completed : List String
  aborted : Option String
  world : World
  res : Except String (JSObj × Value)

/-- Embeds `BaseWorkflow.executePipeline` (`base.js` lines 27–37):
`context.phaseResults = {}`, run the five phases in order, then
`return context.result || context.phaseResults`. -/
def executePipeline (h : Handler) (w : World) (c : JSObj) : PipeOut :=
  let r := runPhases h PHASES w (oset c "phaseResults" (.vObj []))
  match r.res with
  | .error e => ⟨r.completed, r.aborted, r.world, .error e⟩
  | .ok c' =>
    ⟨r.completed, r.aborted, r.world,
     .ok (c', if truthy (oget c' "result") then oget c' "result"
              else oget c' "phaseResults")⟩

/-! ## BaseWorkflow phase handlers (`base.js` lines 99–134) -/

/-- Embeds `BaseWorkflow.executeParametersPhase` (`base.js` lines 104–118): validates
the global `save` and `context` parameters carried on the execution context. -/
def baseParametersPhase (w : World) (c : JSObj) : Except String (World × JSObj × Value) :=
  if truthy (oget c "save") &&
      (!jsStartsWith (asStr (oget c "save")) "/" ||
       !jsEndsWith (asStr (oget c "save")) ".json") then
    .error "Save path must be absolute and end with .json"
  else if truthy (oget c "context") && decide ((asStr (oget c "context")).length > 1000) then
    .error "Context must be less than 1000 characters"
  else
    .ok (w, c, .vObj [("status", .vStr "parameters_processed"), ("params", oget c "params")])

/-- Embeds `BaseWorkflow.executePhase` dispatch with the base phase methods
(`base.js` lines 39–48 and 99–134); the catch-all case is the default
`{status: 'completed', phase}` branch for a phase with no handler method. -/
def baseHandler : Handler
  | "initialization", w, c => .ok (w, c, .vObj [("status", .vStr "initialized")])
  | "parameters", w, c => baseParametersPhase w c
  | "workflow", w, c => .ok (w, c, .vObj [("status", .vStr "workflow_completed")])
  | "validation", w, c => .ok (w, c, .vObj [("status", .vStr "validated")])
  | "output", w, c => .ok (w, c, .vObj [("status", .vStr "output_formatted")])
  | p, w, c => .ok (w, c, .vObj [("status", .vStr "completed"), ("phase", .vStr p)])

/-! ## Stub collaborators on `BaseWorkflow` (`base.js` lines 73–97) -/

/-- Embeds `BaseWorkflow.validateWithRules` — a literal stub in `base.js` (lines
87–91): always `{valid: true, errors: []}`. -/
def validateWithRules (_ruleSets : List String) (_data : Value) : Value :=
  .vObj [("valid", .vBool true), ("errors", .vArr [])]

/-- Embeds `BaseWorkflow.readFile` — a literal stub in `base.js` (lines 93–97). -/
def readFileStub (_path : String) : Value :=
  .vStr "Sample file content"

/-- Embeds `BaseWorkflow.generateContent` — a literal stub in `base.js` (lines
73–85); it ignores the template and agent arguments and embeds `params` as
`metadata`. -/
def generateContent (params : Value) : Value :=
  .vObj [("metadata", params),
         ("overview", .vStr "Sample overview of the critique"),
         ("understanding", .vStr "Sample understanding summary"),
         ("critical_points", .vArr [.vStr "Point 1", .vStr "Point 2"]),
         ("positive_points", .vArr [.vStr "Positive 1", .vStr "Positive 2"]),
         ("questions", .vArr [.vStr "Question 1"]),
         ("final_remarks", .vArr [.vStr "Remark 1"])]

/-! ## MessageWorkflow (`src/.system/hooks/workflows/message.js`) -/

/-- Embeds `MessageWorkflow.handleNewMessage` (`message.js` lines 31–45): builds the
message object from `params.message` / `params.to` with no required-parameter
check. -/
def handleNewMessage (w : World) (c : JSObj) : Except String (World × JSObj × Value) :=
  let message : Value := .vObj
    [("content", paramGet c "message"), ("to", paramGet c "to"),
     ("timestamp", .vStr w.ts),
     ("formattedContent", .vStr ("Message: " ++ jsToString (paramGet c "message") ++
        " (to: " ++ jsToString (paramGet c "to") ++ ")"))]
  .ok (w, c, .vObj [("success", .vBool true), ("action", .vStr "created"),
                    ("message", message)])

/-- Embeds `MessageWorkflow.handleReadMessages` (`message.js` lines 47–66).
(JS numeric coercion of a non-number `count` is not modelled; no claim
supplies one.) -/
def handleReadMessages (w : World) (c : JSObj) : Except String (World × JSObj × Value) :=
  let countV := if truthy (paramGet c "count") then paramGet c "count" else .vNum 5
  let count := match countV with | .vNum n => n | _ => 0
  let messages := (List.range count).map (fun i => Value.vObj
    [("id", .vNum (i + 1)),
     ("content", .vStr ("Sample message " ++ toString (i + 1))),
     ("timestamp", .vStr w.ts)])
  .ok (w, c, .vObj [("success", .vBool true), ("action", .vStr "read"),
                    ("messages", .vArr messages), ("count", countV)])

/-- Embeds `MessageWorkflow.executeWorkflowPhase` (`message.js` lines 21–29); when
neither branch matches, the JS function falls through and returns
`undefined`. -/
def messageWorkflowPhase (w : World) (c : JSObj) : Except String (World × JSObj × Value) :=
  if oget c "command" = .vStr "message:new" then handleNewMessage w c
  else if oget c "command" = .vStr "message:read" then handleReadMessages w c
  else .ok (w, c, .vUndefined)

/-- The `MessageWorkflow` of `message.js`: overrides only the workflow
phase. -/
def messageHandler : Handler
  | "workflow", w, c => messageWorkflowPhase w c
  | p, w, c => baseHandler p w c

/-! ## MessageWorkflow variant (`src/unnamed/part_009`) -/

/-- The `messageContent` local of `part_009`'s `handleNewMessage`:
`context.params.message`, falling back to `context.args.join(' ')` when the
former is falsy and positional args are present. -/
def messageContent9 (c : JSObj) : Value :=
  let mc0 := paramGet c "message"
  if !truthy mc0 then
    match oget c "args" with
    | .vArr xs =>
      if xs.length > 0 then .vStr (String.intercalate " " (xs.map jsToString)) else mc0
    | _ => mc0
  else mc0

/-- Embeds `MessageWorkflow.handleNewMessage` from `part_009` (lines 69–97): falls
back to positional `args`, throws a descriptive error when the message body
is missing, and defaults the target agent. -/
def handleNewMessage9 (w : World) (c : JSObj) : Except String (World × JSObj × Value) :=
  let mc := messageContent9 c
  if !truthy mc then
    .error "Message content is required. Use --message \"your message\" or provide it as a positional argument."
  else
    let targetAgent := if truthy (paramGet c "to") then paramGet c "to"
                       else .vStr "discussion-moderator"
    let message : Value := .vObj
      [("content", mc), ("to", targetAgent),
       ("timestamp", .vStr w.ts),
       ("formattedContent", .vStr ("Message: " ++ jsToString mc ++
          " (to: " ++ jsToString targetAgent ++ ")"))]
    .ok (w, c, .vObj [("success", .vBool true), ("action", .vStr "created"),
                      ("message", message)])

/-- Embeds `MessageWorkflow.executeWorkflowPhase` from `part_009` (lines 21–29). -/
def messageWorkflowPhase9 (w : World) (c : JSObj) : Except String (World × JSObj × Value) :=
  if oget c "command" = .vStr "message:new" then handleNewMessage9 w c
  else if oget c "command" = .vStr "message:read" then handleReadMessages w c
  else .ok (w, c, .vUndefined)

/-- Embeds `MessageWorkflow.executeValidationPhase` from `part_009` (lines 31–41). -/
def messageValidationPhase9 (w : World) (c : JSObj) : Except String (World × JSObj × Value) :=
  let validation := validateWithRules ["message"] (.vObj c)
  if !truthy (oget (asObj validation) "valid") then
    .error ("Validation failed: " ++ String.intercalate ", "
      ((match oget (asObj validation) "errors" with
        | .vArr es => es
        | _ => []).map jsToString))
  else .ok (w, c, validation)

/-- The `MessageWorkflow` of `part_009`.  Its `executeOutputPhase` calls an
`executeUtilities` helper whose definition is not part of the repository
source; that phase is kept as the base default here and is never reached by
any theorem below (the claims about this variant concern the workflow-phase
required-parameter check, which aborts the pipeline first). -/
def message9Handler : Handler
  | "workflow", w, c => messageWorkflowPhase9 w c
  | "validation", w, c => messageValidationPhase9 w c
  | p, w, c => baseHandler p w c

/-! ## SystemWorkflow (second document of
`src/.system/hooks/core/orchestrator.js`) -/

/-- Embeds `SystemWorkflow.handleSystemOn`. -/
def handleSystemOn (w : World) (_c : JSObj) : Except String (World × JSObj × Value) :=
  let systemStatus : Value := .vObj
    [("initialized", .vBool true), ("timestamp", .vStr w.ts),
     ("agents_loaded", .vNum 1), ("workflows_loaded", .vNum 2),
     ("commands_available", .vNum 5), ("templates_loaded", .vNum 1),
     ("utilities_loaded", .vNum 11)]
  .ok (w, _c, .vObj [("success", .vBool true), ("action", .vStr "initialized"),
                     ("status", systemStatus),
                     ("message", .vStr "Agent Forger system initialized successfully")])

/-- Embeds `SystemWorkflow.handleSystemHealth`. -/
def handleSystemHealth (w : World) (c : JSObj) : Except String (World × JSObj × Value) :=
  let verbose := if truthy (paramGet c "verbose") then paramGet c "verbose"
                 else .vBool false
  let healthStatus : JSObj :=
    [("overall", .vStr "healthy"), ("timestamp", .vStr w.ts),
     ("checks", .vObj [("configuration", .vStr "passed"), ("agents", .vStr "passed"),
                       ("workflows", .vStr "passed"), ("commands", .vStr "passed"),
                       ("filesystem", .vStr "passed")])]
  let healthStatus :=
    if truthy verbose then
      oset healthStatus "details" (.vObj
        [("agents_count", .vNum 1), ("workflows_count", .vNum 2),
         ("commands_count", .vNum 5), ("system_uptime", .vStr "simulated"),
         ("memory_usage", .vStr "normal")])
    else healthStatus
  .ok (w, c, .vObj [("success", .vBool true), ("action", .vStr "health_check"),
                    ("status", .vObj healthStatus), ("verbose", verbose)])

/-- The manifest object literal from `SystemWorkflow.handleSystemManifest`. -/
def systemManifest : Value :=
  .vObj [("name", .vStr "Agent Forger"), ("version", .vStr "1.0.0"),
         ("description", .vStr "Meta-system for forging AI agents with structured workflows"),
         ("architecture", .vStr "pipeline-based"),
         ("components", .vObj
           [("agents", .vArr [.vStr "discussion-moderator"]),
            ("workflows", .vArr [.vStr "message", .vStr "system"]),
            ("commands", .vArr [.vStr "message:new", .vStr "message:read", .vStr "system:on",
                                .vStr "system:health", .vStr "system:manifest"]),
            ("templates", .vArr [.vStr "conversation-thread"]),
            ("utilities", .vArr [.vStr "text processing", .vStr "file operations",
                                 .vStr "system monitoring", .vStr "validation",
                                 .vStr "formatting"])]),
         ("capabilities", .vArr
           [.vStr "Multi-agent collaboration", .vStr "Structured AI workflows",
            .vStr "Quality assurance", .vStr "Extensible architecture",
            .vStr "Command-line interface"])]

/-- The trimmed template-literal text manifest from
`SystemWorkflow.handleSystemManifest`. -/
def systemManifestText : String :=
  "Agent Forger v1.0.0\n" ++
  "Meta-system for forging AI agents with structured workflows\n\n" ++
  "Architecture: pipeline-based\n\n" ++
  "Components:\n" ++
  "- Agents: discussion-moderator\n" ++
  "- Workflows: message, system\n" ++
  "- Commands: 5 available\n" ++
  "- Templates: conversation-thread\n" ++
  "- Utilities: text processing, file operations, system monitoring, validation, formatting\n\n" ++
  "Capabilities:\n" ++
  "- Multi-agent collaboration\n" ++
  "- Structured AI workflows\n" ++
  "- Quality assurance\n" ++
  "- Extensible architecture\n" ++
  "- Command-line interface"

/-- Embeds `SystemWorkflow.handleSystemManifest`. -/
def handleSystemManifest (w : World) (c : JSObj) : Except String (World × JSObj × Value) :=
  let format := if truthy (paramGet c "format") then paramGet c "format" else .vStr "text"
  if format = .vStr "json" then
    .ok (w, c, .vObj [("success", .vBool true), ("action", .vStr "manifest"),
                      ("format", .vStr "json"), ("data", systemManifest)])
  else
    .ok (w, c, .vObj [("success", .vBool true), ("action", .vStr "manifest"),
                      ("format", .vStr "text"), ("data", .vStr systemManifestText)])

/-- Embeds `SystemWorkflow.executeWorkflowPhase`; when no branch matches, the JS
function returns `undefined`. -/
def systemWorkflowPhase (w : World) (c : JSObj) : Except String (World × JSObj × Value) :=
  if oget c "command" = .vStr "system:on" then handleSystemOn w c
  else if oget c "command" = .vStr "system:health" then handleSystemHealth w c
  else if oget c "command" = .vStr "system:manifest" then handleSystemManifest w c
  else .ok (w, c, .vUndefined)

/-- The `SystemWorkflow`: overrides only the workflow phase. -/
def systemHandler : Handler
  | "workflow", w, c => systemWorkflowPhase w c
  | p, w, c => baseHandler p w c

/-! ## MetaWorkflow (`src/.system/hooks/workflows/meta.js`) -/

/-- Embeds `MetaWorkflow.handleContext` (`meta.js` lines 28–62): add / list / clear
on the orchestrator's Global Context Store (`this.orchestrator.context`,
modelled by `World.store`).  Note the `add` branch performs no length check
on the pushed content. -/
def handleContext (w : World) (c : JSObj) : Except String (World × JSObj × Value) :=
  if truthy (paramGet c "add") then
    let w' := { w with store := w.store ++
      [⟨asStr (oget c "command"), paramGet c "add", w.ts⟩] }
    .ok (w', c, .vObj [("success", .vBool true), ("action", .vStr "context_added"),
                       ("content", paramGet c "add")])
  else if truthy (paramGet c "list") then
    .ok (w, c, .vObj [("success", .vBool true), ("action", .vStr "context_listed"),
                      ("context", .vArr (w.store.map entryToValue))])
  else if truthy (paramGet c "clear") then
    let clearedCount := w.store.length
    .ok ({ w with store := [] }, c,
         .vObj [("success", .vBool true), ("action", .vStr "context_cleared"),
                ("clearedCount", .vNum clearedCount)])
  else
    .error "Specify --add, --list, or --clear for meta:context command"

/-- Embeds `MetaWorkflow.executeWorkflowPhase` (`meta.js` lines 20–26). -/
def metaWorkflowPhase (w : World) (c : JSObj) : Except String (World × JSObj × Value) :=
  if oget c "command" = .vStr "meta:context" then handleContext w c
  else .ok (w, c, .vUndefined)

/-- The `MetaWorkflow`: overrides only the workflow phase. -/
def metaHandler : Handler
  | "workflow", w, c => metaWorkflowPhase w c
  | p, w, c => baseHandler p w c

/-! ## OutputWorkflow (`src/.system/hooks/workflows/output.js`) -/

def validVerbosityLevels : List String := ["low", "medium", "high", "off"]

def validFormatTypes : List String := ["json", "markdown", "text"]

/-- Embeds `OutputWorkflow.handleVerbosity` (`output.js` lines 31–56). -/
def handleVerbosity (w : World) (c : JSObj) : Except String (World × JSObj × Value) :=
  let level := paramGet c "level"
  let levelOk := match level with
    | .vStr s => validVerbosityLevels.contains s
    | _ => false
  if !levelOk then
    .error ("Invalid verbosity level. Valid options: " ++
            String.intercalate ", " validVerbosityLevels)
  else
    let descriptions : JSObj :=
      [("low", .vStr "~140 characters (concise)"),
       ("medium", .vStr "~520 characters (balanced)"),
       ("high", .vStr "~740 characters (detailed)"),
       ("off", .vStr "unrestricted length")]
    .ok ({ w with settings := { w.settings with verbosity := asStr level } }, c,
         .vObj [("success", .vBool true), ("action", .vStr "set_verbosity"),
                ("level", level), ("description", oget descriptions (asStr level))])

/-- Embeds `OutputWorkflow.handleFormat` (`output.js` lines 58–75). -/
def handleFormat (w : World) (c : JSObj) : Except String (World × JSObj × Value) :=
  let t := paramGet c "type"
  let typeOk := match t with
    | .vStr s => validFormatTypes.contains s
    | _ => false
  if !typeOk then
    .error ("Invalid format type. Valid options: " ++
            String.intercalate ", " validFormatTypes)
  else
    .ok ({ w with settings := { w.settings with format := asStr t } }, c,
         .vObj [("success", .vBool true), ("action", .vStr "set_format"), ("type", t)])

/-- Embeds `OutputWorkflow.executeWorkflowPhase` (`output.js` lines 21–29). -/
def outputWorkflowPhase (w : World) (c : JSObj) : Except String (World × JSObj × Value) :=
  if oget c "command" = .vStr "output:verbosity" then handleVerbosity w c
  else if oget c "command" = .vStr "output:format" then handleFormat w c
  else .ok (w, c, .vUndefined)

/-- The `OutputWorkflow`: overrides only the workflow phase. -/
def outputHandler : Handler
  | "workflow", w, c => outputWorkflowPhase w c
  | p, w, c => baseHandler p w c

/-! ## AgentWorkflow (`src/unnamed/part_010`) -/

/-- Embeds `AgentWorkflow.handleSwitch`: requires `--name`, checks the persona file
exists (`fs.existsSync`, modelled by `World.fsExists`), then mutates
`settings.activeAgent`. -/
def handleSwitch (w : World) (c : JSObj) : Except String (World × JSObj × Value) :=
  let agentName := paramGet c "name"
  if !truthy agentName then
    .error "Agent name is required. Use --name \"agent-name\""
  else
    let agentPath := ".system/agents/" ++ jsToString agentName ++ ".md"
    if !(w.fsExists agentPath) then
      .error ("Agent \"" ++ jsToString agentName ++ "\" not found")
    else
      .ok ({ w with settings := { w.settings with activeAgent := asStr agentName } }, c,
           .vObj [("success", .vBool true), ("action", .vStr "switched_agent"),
                  ("agent", agentName)])

/-- Embeds `AgentWorkflow.handleStatus`. -/
def handleStatus (w : World) (c : JSObj) : Except String (World × JSObj × Value) :=
  let activeAgent := if w.settings.activeAgent = "" then "discussion-moderator"
                     else w.settings.activeAgent
  let verbosity := if w.settings.verbosity = "" then "off" else w.settings.verbosity
  let format := if w.settings.format = "" then "text" else w.settings.format
  .ok (w, c, .vObj [("success", .vBool true), ("action", .vStr "status"),
                    ("activeAgent", .vStr activeAgent), ("verbosity", .vStr verbosity),
                    ("format", .vStr format)])

/-- Embeds `AgentWorkflow.handleList`: the agents-directory scan and persona-file
description parsing are file-system collaborators (spec §6); the resulting
(name, description) pairs are supplied by `World.agentsDirList`. -/
def handleList (w : World) (c : JSObj) : Except String (World × JSObj × Value) :=
  .ok (w, c, .vObj [("success", .vBool true), ("action", .vStr "list_agents"),
       ("agents", .vArr (w.agentsDirList.map (fun nd =>
          Value.vObj [("name", .vStr nd.1), ("description", .vStr nd.2)])))])

/-- Embeds `AgentWorkflow.handleReset`: resets the session settings to defaults. -/
def handleReset (w : World) (c : JSObj) : Except String (World × JSObj × Value) :=
  .ok ({ w with settings := { activeAgent := "discussion-moderator",
                              verbosity := "off", format := "text" } }, c,
       .vObj [("success", .vBool true), ("action", .vStr "reset"),
              ("message", .vStr "Agent settings reset to defaults")])

/-- Embeds `AgentWorkflow.executeWorkflowPhase` (`part_010` lines 25–37). -/
def agentWorkflowPhase (w : World) (c : JSObj) : Except String (World × JSObj × Value) :=
  if oget c "command" = .vStr "agent:switch" then handleSwitch w c
  else if oget c "command" = .vStr "agent:status" then handleStatus w c
  else if oget c "command" = .vStr "agent:list" then handleList w c
  else if oget c "command" = .vStr "agent:reset" then handleReset w c
  else .ok (w, c, .vUndefined)

/-- The `AgentWorkflow`: overrides only the workflow phase. -/
def agentHandler : Handler
  | "workflow", w, c => agentWorkflowPhase w c
  | p, w, c => baseHandler p w c

/-! ## CriticWorkflow (`src/.system/hooks/workflows/critic.js`) -/

mutual

/-- Embeds `JSON.stringify` on a `Value`, as used by `formatCritiqueReport` for the
critique metadata.  The pretty-printer's indentation whitespace (the
`null, 2` arguments) and string-escape details are not modelled; no claim
inspects serialized text. -/
def jsonStringify : Value → String
  | .vUndefined => "null"
  | .vNull => "null"
  | .vBool b => if b then "true" else "false"
  | .vNum n => toString n
  | .vStr s => "\"" ++ s ++ "\""
  | .vArr xs => "[" ++ jsonStringifyList xs ++ "]"
  | .vObj fs => "\x7b" ++ jsonStringifyFields fs ++ "\x7d"

def jsonStringifyList : List Value → String
  | [] => ""
  | [x] => jsonStringify x
  | x :: xs => jsonStringify x ++ "," ++ jsonStringifyList xs

def jsonStringifyFields : List (String × Value) → String
  | [] => ""
  | [(k, v)] => "\"" ++ k ++ "\":" ++ jsonStringify v
  | (k, v) :: fs => "\"" ++ k ++ "\":" ++ jsonStringify v ++ "," ++ jsonStringifyFields fs

end

/-- One conditional bulleted section of `formatCritiqueReport`
(`critique.<field> && critique.<field>.length > 0`). -/
def bulletSection (title : String) (v : Value) : String :=
  match v with
  | .vArr xs =>
    if xs.length > 0 then
      title ++ String.join (xs.map (fun x => "- " ++ jsToString x ++ "\n")) ++ "\n"
    else ""
  | _ => ""

/-- Embeds `CriticWorkflow.formatCritiqueReport` (`critic.js` lines 119–167).
`this.metadata.name` is `"BaseWorkflow"`: the `CriticWorkflow` constructor
only reassigns `metadata.supportedCommands`, never `metadata.name`. -/
def formatCritiqueReport (critique params : Value) : String :=
  "# " ++ jsToUpper (jsToString (oget (asObj params) "domain")) ++
    " CRITIQUE (BaseWorkflow)\n\n" ++
  (if truthy (oget (asObj critique) "metadata") then
    "**Metadata:** " ++ jsonStringify (oget (asObj critique) "metadata") ++ "\n\n"
   else "") ++
  (if truthy (oget (asObj critique) "overview") then
    "**Overview:** " ++ jsToString (oget (asObj critique) "overview") ++ "\n\n"
   else "") ++
  (if truthy (oget (asObj critique) "understanding") then
    "**What I Understood:** " ++ jsToString (oget (asObj critique) "understanding") ++ "\n\n"
   else "") ++
  bulletSection "**Critical Points:**\n" (oget (asObj critique) "critical_points") ++
  bulletSection "**Positive Points:**\n" (oget (asObj critique) "positive_points") ++
  bulletSection "**Questions for Clarification:**\n" (oget (asObj critique) "questions") ++
  bulletSection "**Final Remarks:**\n" (oget (asObj critique) "final_remarks")

/-- Embeds `CriticWorkflow.executeInitializationPhase` (`critic.js` lines 13–25):
stores the personality derived from the command.  `loadAgent` and
`loadTemplate` only populate workflow-instance maps consumed by the
`generateContent` stub, which ignores them; they have no other effect. -/
def criticInitializationPhase (w : World) (c : JSObj) : Except String (World × JSObj × Value) :=
  let personality : Value :=
    match (jsSplit (asStr (oget c "command")) ':')[1]? with
    | some s => .vStr s
    | none => .vUndefined
  let c' := oset c "personality" personality
  .ok (w, c', .vObj [("status", .vStr "initialized"), ("personality", personality)])

/-- Embeds `CriticWorkflow.executeParametersPhase` (`critic.js` lines 27–59): checks
only that `source` is present, sets defaults, splits `focus`, and loads the
source content.  It does not perform the base parameters phase's `save` /
`context` structural checks. -/
def criticParametersPhase (w : World) (c : JSObj) : Except String (World × JSObj × Value) :=
  if !truthy (paramGet c "source") then
    .error "Source parameter is required"
  else
    let params1 := oset (asObj (oget c "params")) "domain"
      (if truthy (paramGet c "domain") then paramGet c "domain" else .vStr "general")
    let params2 := oset params1 "audience"
      (if truthy (oget params1 "audience") then oget params1 "audience" else .vStr "general")
    let params3 :=
      if truthy (oget params2 "focus") then
        oset params2 "focus" (.vArr ((jsSplit (asStr (oget params2 "focus")) ',').map
          (fun t => .vStr (jsTrim t))))
      else params2
    let c1 := oset c "params" (.vObj params3)
    let src := oget params3 "source"
    let c2 := oset c1 "sourceContent"
      (if jsStartsWith (asStr src) "/" then readFileStub (asStr src) else src)
    let c3 :=
      if truthy (oget params3 "compare") then
        oset c2 "previousCritique" (readFileStub (asStr (oget params3 "compare")))
      else c2
    .ok (w, c3, .vObj [("status", .vStr "parameters_processed")])

/-- Embeds `CriticWorkflow.executeWorkflowPhase` (`critic.js` lines 61–84). -/
def criticWorkflowPhase (w : World) (c : JSObj) : Except String (World × JSObj × Value) :=
  let contentData : Value := .vObj
    [("content", oget c "sourceContent"),
     ("domain", paramGet c "domain"),
     ("focus", if truthy (paramGet c "focus") then paramGet c "focus" else .vArr []),
     ("audience", paramGet c "audience"),
     ("personality", oget c "personality"),
     ("previousCritique", if truthy (oget c "previousCritique") then oget c "previousCritique"
                          else .vNull),
     ("userContext", if truthy (oget c "context") then oget c "context" else .vNull)]
  let critique := generateContent contentData
  let c' := oset c "critique" critique
  .ok (w, c', .vObj [("status", .vStr "critique_generated")])

/-- JS object spread merge `{...a, ...b}`. -/
def omerge (a b : JSObj) : JSObj :=
  b.foldl (fun acc kv => oset acc kv.1 kv.2) a

/-- Embeds `CriticWorkflow.executeValidationPhase` (`critic.js` lines 86–100). -/
def criticValidationPhase (w : World) (c : JSObj) : Except String (World × JSObj × Value) :=
  let validation := validateWithRules ["critic"]
    (.vObj (omerge (asObj (oget c "params")) (asObj (oget c "critique"))))
  if !truthy (oget (asObj validation) "valid") then
    .error ("Validation failed: " ++ String.intercalate ", "
      ((match oget (asObj validation) "errors" with
        | .vArr es => es
        | _ => []).map jsToString))
  else .ok (w, c, .vObj [("status", .vStr "validated")])

/-- Embeds `CriticWorkflow.executeOutputPhase` (`critic.js` lines 102–117): sets
`context.result`. -/
def criticOutputPhase (w : World) (c : JSObj) : Except String (World × JSObj × Value) :=
  let report := formatCritiqueReport (oget c "critique") (oget c "params")
  let c' := oset c "result" (.vObj
    [("personality", oget c "personality"), ("domain", paramGet c "domain"),
     ("report", .vStr report)])
  .ok (w, c', .vObj [("status", .vStr "output_formatted")])

/-- The `CriticWorkflow`: overrides all five phases. -/
def criticHandler : Handler
  | "initialization", w, c => criticInitializationPhase w c
  | "parameters", w, c => criticParametersPhase w c
  | "workflow", w, c => criticWorkflowPhase w c
  | "validation", w, c => criticValidationPhase w c
  | "output", w, c => criticOutputPhase w c
  | p, w, c => baseHandler p w c

/-! ## Orchestrators (`src/unnamed/part_008` and `src/unnamed/part_007`) -/

/-- A registered workflow: its declared `supportedCommands` list
(`isSupportedCommand` is list membership in every workflow) and its phase
handler set. -/
structure WorkflowImpl where
  supported : List String
  handler : Handler

def messageWf : WorkflowImpl := ⟨["message:new", "message:read"], messageHandler⟩

def systemWf : WorkflowImpl := ⟨["system:on", "system:health", "system:manifest"], systemHandler⟩

def metaWf : WorkflowImpl := ⟨["meta:context"], metaHandler⟩

def outputWf : WorkflowImpl := ⟨["output:verbosity", "output:format"], outputHandler⟩

def agentWf : WorkflowImpl :=
  ⟨["agent:switch", "agent:status", "agent:list", "agent:reset"], agentHandler⟩

def criticWf : WorkflowImpl := ⟨["critic:harsh", "critic:mentor", "critic:casual"], criticHandler⟩

/-- Embeds `const [category] = command.split(':')` — the text before the first
colon (the whole string when there is none). -/
def categoryOf (command : String) : String :=
  (jsSplit command ':').headD ""

/-- The workflow registry built by `part_008`'s `initialize` (lines 51–62). -/
def orch8Workflows : List (String × WorkflowImpl) :=
  [("message", messageWf), ("system", systemWf), ("agent", agentWf),
   ("meta", metaWf), ("critic", criticWf)]

/-- Observable outcome of one `part_008` dispatch: the resolved value or the
thrown error, the final Global Context Store and Session Settings, the trace
files written (`savePipelineData` path/record pairs; JSON whitespace is not
modelled), and the instrumented phase trace. -/
structure DispatchOut where
  result : Except String Value
  store : List Entry
  settings : Settings
  writes : List (String × Value)
  completed : List String
  aborted : Option String

/-! The global-parameter extraction at the top of `part_008`'s
`executeCommand` (lines 67–83), as named pieces: `save` is extracted (and
deleted from `params`) first; then `context` is extracted from the remaining
params, pushed onto the Global Context Store, and deleted. -/

/-- Embeds `globalParams.save` (`part_008` lines 69–72). -/
def orchSaveOpt (params : JSObj) : Option Value :=
  if truthy (oget params "save") then some (oget params "save") else none

/-- Embeds `params` after the `save` extraction. -/
def orchParams1 (params : JSObj) : JSObj :=
  if truthy (oget params "save") then odel params "save" else params

/-- Embeds `globalParams.context` (`part_008` lines 73–83). -/
def orchCtxOpt (params : JSObj) : Option Value :=
  if truthy (oget (orchParams1 params) "context") then
    some (oget (orchParams1 params) "context") else none

/-- The Global Context Store after the unconditional context push
(`part_008` lines 76–80). -/
def orchStore1 (store : List Entry) (ts command : String) (params : JSObj) : List Entry :=
  if truthy (oget (orchParams1 params) "context") then
    store ++ [⟨command, oget (orchParams1 params) "context", ts⟩] else store

/-- Embeds `params` after both extractions. -/
def orchParams2 (params : JSObj) : JSObj :=
  if truthy (oget (orchParams1 params) "context") then
    odel (orchParams1 params) "context" else orchParams1 params

/-- The `globalParams` object. -/
def globalParamsObj (params : JSObj) : JSObj :=
  (match orchSaveOpt params with | some s => [("save", s)] | none => []) ++
  (match orchCtxOpt params with | some v => [("context", v)] | none => [])

/-- Embeds `const context = { command, params, globalContext: this.context,
...globalParams }` (`part_008` line 96). -/
def buildCtx0 (store1 : List Entry) (command : String) (params : JSObj) : JSObj :=
  [("command", .vStr command), ("params", .vObj (orchParams2 params)),
   ("globalContext", .vArr (store1.map entryToValue))] ++ globalParamsObj params

/-- Embeds `Orchestrator.executeCommand` from `part_008` (lines 64–112) together
with `savePipelineData` (lines 119–133): extract the global `save` and
`context` parameters (pushing `context` onto the Global Context Store before
the category lookup), look up the workflow, check `isSupportedCommand`, run
the pipeline, and on success write the trace file when `context.save` is
set. -/
def executeCommand8 (store : List Entry) (settings : Settings) (ts : String)
    (fsExists : String → Bool) (agentsDirList : List (String × String))
    (command : String) (params : JSObj) : DispatchOut :=
  match orch8Workflows.lookup (categoryOf command) with
  | none =>
    ⟨.error ("No workflow found for category: " ++ categoryOf command),
     orchStore1 store ts command params, settings, [], [], none⟩
  | some wf =>
    if !(wf.supported.contains command) then
      ⟨.error ("Command not supported: " ++ command),
       orchStore1 store ts command params, settings, [], [], none⟩
    else
      let out := executePipeline wf.handler
        ⟨orchStore1 store ts command params, settings, ts, fsExists, agentsDirList⟩
        (buildCtx0 (orchStore1 store ts command params) command params)
      match out.res with
      | .error e =>
        ⟨.error e, out.world.store, out.world.settings, [], out.completed, out.aborted⟩
      | .ok (cfin, result) =>
        ⟨.ok result, out.world.store, out.world.settings,
         (if truthy (oget cfin "save") then
            [(asStr (oget cfin "save"), Value.vObj
              [("command", oget cfin "command"), ("params", oget cfin "params"),
               ("globalParams", .vObj (globalParamsObj params)),
               ("phaseResults", if truthy (oget cfin "phaseResults") then
                  oget cfin "phaseResults" else .vObj []),
               ("result", result), ("timestamp", .vStr ts)])]
          else []),
         out.completed, out.aborted⟩


/-- The workflow registry created by `part_007`'s `initialize`.  `part_007`
defines `initialize()` twice; under JS class semantics the second definition
(lines 63–71) replaces the first (lines 50–61) on the prototype, so the
constructor's `this.initialize()` registers only `message` and `system`, and
the imported `EmailWorkflow`, `OutputWorkflow` and `AgentWorkflow` are never
instantiated. -/
def orch7Workflows : List (String × WorkflowImpl) :=
  [("message", messageWf), ("system", systemWf)]

/-- Observable outcome of one `part_007` dispatch. -/
structure Dispatch7Out where
  result : Except String Value
  settings : Settings
  completed : List String
  aborted : Option String

/-- Embeds `Orchestrator.executeCommand` from `part_007` (lines 73–91): category
lookup, `isSupportedCommand` check, then `workflow.execute({command, params})`.
This variant extracts no global parameters and owns no context store. -/
def executeCommand7 (settings : Settings) (ts : String) (fsExists : String → Bool)
    (agentsDirList : List (String × String)) (command : String) (params : JSObj) :
    Dispatch7Out :=
  let category := categoryOf command
  match orch7Workflows.lookup category with
  | none => ⟨.error ("No workflow found for category: " ++ category), settings, [], none⟩
  | some wf =>
    if !(wf.supported.contains command) then
      ⟨.error ("Command not supported: " ++ command), settings, [], none⟩
    else
      let w0 : World := ⟨[], settings, ts, fsExists, agentsDirList⟩
      let out := executePipeline wf.handler w0
        [("command", .vStr command), ("params", .vObj params)]
      match out.res with
      | .error e => ⟨.error e, out.world.settings, out.completed, out.aborted⟩
      | .ok (_, result) => ⟨.ok result, out.world.settings, out.completed, out.aborted⟩

/-! ## Small observers used by the statements -/

/-- Whether an `Except` is a normal (non-thrown) result. -/
def isOkE {α : Type} : Except String α → Bool
  | .ok _ => true
  | .error _ => false

/-- The resolved value of a dispatch (`undefined` when it threw). -/
def okValueD : Except String Value → Value
  | .ok v => v
  | .error _ => .vUndefined

/-- The property names of an object, in order. -/
def objKeys (o : JSObj) : List String :=
  o.map Prod.fst

/-- An empty file system, for concrete runs. -/
def noFs : String → Bool := fun _ => false

/-- A fresh world: empty store, default settings, fixed clock, no files. -/
def world0 : World := ⟨[], loadDefaultSettings, "T0", noFs, []⟩

/-- A 1001-character text. -/
def longText : String := String.mk (List.replicate 1001 'a')

/-! ## Object-operation lemmas -/

theorem oget_oset_self (o : JSObj) (k : String) (v : Value) :
    oget (oset o k v) k = v := by
  induction o with
  | nil => simp [oget, oset]
  | cons kv rest ih =>
    by_cases h : kv.1 = k
    · simp [oget, oset, h]
    · simp [oget, oset, h, ih]

theorem oget_oset_ne (o : JSObj) (k k2 : String) (v : Value) (h : k2 ≠ k) :
    oget (oset o k v) k2 = oget o k2 := by
  induction o with
  | nil => simp [oget, oset, Ne.symm h]
  | cons kv rest ih =>
    by_cases hk : kv.1 = k
    · simp [oget, oset, hk, Ne.symm h]
    · simp only [oset, show (kv.1 == k) = false by simpa using hk]
      by_cases hk2 : kv.1 = k2
      · simp [oget, hk2]
      · simp [oget, show (kv.1 == k2) = false by simpa using hk2, ih]

theorem oget_odel_ne (o : JSObj) (k k2 : String) (h : k2 ≠ k) :
    oget (odel o k) k2 = oget o k2 := by
  induction o with
  | nil => rfl
  | cons kv rest ih =>
    by_cases hk : kv.1 = k
    · have hd : odel (kv :: rest) k = odel rest k := by
        simp [odel, List.filter_cons, hk]
      have hg : oget (kv :: rest) k2 = oget rest k2 := by
        simp [oget, show (kv.1 == k2) = false by simp [hk, Ne.symm h]]
      rw [hd, hg, ih]
    · have hd : odel (kv :: rest) k = kv :: odel rest k := by
        simp [odel, List.filter_cons, hk]
      rw [hd]
      by_cases hk2 : kv.1 = k2
      · simp [oget, hk2]
      · simp [oget, show (kv.1 == k2) = false by simpa using hk2, ih]

theorem objKeys_oset_mem (o : JSObj) (k : String) (v : Value) (h : k ∈ objKeys o) :
    objKeys (oset o k v) = objKeys o := by
  induction o with
  | nil => simp [objKeys] at h
  | cons kv rest ih =>
    by_cases hk : kv.1 = k
    · simp [objKeys, oset, hk]
    · have hmem : k ∈ objKeys rest := by
        simp only [objKeys, List.map_cons, List.mem_cons] at h
        exact h.resolve_left (fun hh => hk hh.symm)
      simp [objKeys, oset, show (kv.1 == k) = false by simpa using hk]
      simpa [objKeys] using ih hmem

theorem objKeys_oset_not_mem (o : JSObj) (k : String) (v : Value) (h : k ∉ objKeys o) :
    objKeys (oset o k v) = objKeys o ++ [k] := by
  induction o with
  | nil => simp [objKeys, oset]
  | cons kv rest ih =>
    have hk : kv.1 ≠ k := by
      intro hh; exact h (by simp [objKeys, hh])
    have hrest : k ∉ objKeys rest := by
      intro hh; exact h (by simp [objKeys]; right; simpa [objKeys] using hh)
    simp [objKeys, oset, show (kv.1 == k) = false by simpa using hk]
    simpa [objKeys] using ih hrest

theorem oget_ite_oset (cond : Prop) [Decidable cond] (B : JSObj) (kk k : String) (Y : Value)
    (h : k ≠ kk) : oget (if cond then oset B kk Y else B) k = oget B k := by
  split
  · exact oget_oset_ne _ _ _ _ h
  · rfl

theorem oget_recordPhase_ne (c : JSObj) (p : String) (v : Value) (k : String)
    (h : k ≠ "phaseResults") :
    oget (recordPhase c p v) k = oget c k := by
  simp [recordPhase, oget_oset_ne _ _ _ _ h]

theorem paramGet_recordPhase (c : JSObj) (p : String) (v : Value) (k : String) :
    paramGet (recordPhase c p v) k = paramGet c k := by
  unfold paramGet
  rw [oget_recordPhase_ne c p v "params" (by decide)]

theorem oget_recordPhase_self (c : JSObj) (p : String) (v : Value) :
    oget (recordPhase c p v) "phaseResults" =
      .vObj (oset (asObj (oget c "phaseResults")) p v) := by
  simp [recordPhase, oget_oset_self]

theorem orchParams1_context (params : JSObj) :
    oget (orchParams1 params) "context" = oget params "context" := by
  unfold orchParams1
  split
  · exact oget_odel_ne _ _ _ (by decide)
  · rfl

theorem orchStore1_eq (store : List Entry) (ts command : String) (params : JSObj) :
    orchStore1 store ts command params =
      store ++ (if truthy (oget params "context") = true then
        [⟨command, oget params "context", ts⟩] else []) := by
  unfold orchStore1
  rw [orchParams1_context]
  split <;> simp

/-! ## Pipeline trace lemmas -/

theorem runPhases_spec (h : Handler) (ps : List String) (w : World) (c : JSObj) :
    (runPhases h ps w c).completed <+: ps ∧
    ((runPhases h ps w c).completed = ps ↔ isOkE (runPhases h ps w c).res = true) ∧
    ((runPhases h ps w c).completed ++ (runPhases h ps w c).aborted.toList) <+: ps := by
  induction ps generalizing w c with
  | nil => simp [runPhases, isOkE]
  | cons p ps ih =>
    cases hh : h p w c with
    | error e =>
      refine ⟨?_, ?_, ?_⟩ <;> simp [runPhases, hh, isOkE]
    | ok r =>
      obtain ⟨w', c', v⟩ := r
      obtain ⟨ih1, ih2, ih3⟩ := ih w' (recordPhase c' p v)
      refine ⟨?_, ?_, ?_⟩ <;> simp only [runPhases, hh]
      · exact List.cons_prefix_cons.mpr ⟨rfl, ih1⟩
      · simpa using ih2
      · exact List.cons_prefix_cons.mpr ⟨rfl, by simpa using ih3⟩

theorem executePipeline_trace (h : Handler) (w : World) (c : JSObj) :
    (executePipeline h w c).completed =
      (runPhases h PHASES w (oset c "phaseResults" (.vObj []))).completed ∧
    (executePipeline h w c).aborted =
      (runPhases h PHASES w (oset c "phaseResults" (.vObj []))).aborted ∧
    isOkE (executePipeline h w c).res =
      isOkE (runPhases h PHASES w (oset c "phaseResults" (.vObj []))).res ∧
    (executePipeline h w c).world =
      (runPhases h PHASES w (oset c "phaseResults" (.vObj []))).world := by
  unfold executePipeline
  cases hr : (runPhases h PHASES w (oset c "phaseResults" (.vObj []))).res <;>
    simp [hr, isOkE]

/-! ## Handler frame lemmas -/

/-- A handler leaves context property `k` unchanged on every normal return. -/
def PreservesKey (h : Handler) (k : String) : Prop :=
  ∀ p w c r, h p w c = .ok r → oget r.2.1 k = oget c k

/-- A handler never changes the Global Context Store. -/
def StorePreserving (h : Handler) : Prop :=
  ∀ p w c r, h p w c = .ok r → r.1.store = w.store

theorem runPhases_oget (h : Handler) (k : String) (hk : k ≠ "phaseResults")
    (hp : PreservesKey h k) (ps : List String) :
    ∀ (w : World) (c cfin : JSObj),
      (runPhases h ps w c).res = .ok cfin → oget cfin k = oget c k := by
  induction ps with
  | nil =>
    intro w c cfin hres
    simp only [runPhases] at hres
    cases hres
    rfl
  | cons p ps ih =>
    intro w c cfin hres
    cases hh : h p w c with
    | error e => simp [runPhases, hh] at hres
    | ok r =>
      obtain ⟨w', c', v⟩ := r
      simp only [runPhases, hh] at hres
      rw [ih w' (recordPhase c' p v) cfin hres,
          oget_recordPhase_ne _ _ _ _ hk, hp p w c _ hh]

theorem runPhases_store (h : Handler) (hp : StorePreserving h) (ps : List String) :
    ∀ (w : World) (c : JSObj), (runPhases h ps w c).world.store = w.store := by
  induction ps with
  | nil => intro w c; rfl
  | cons p ps ih =>
    intro w c
    cases hh : h p w c with
    | error e => simp [runPhases, hh]
    | ok r =>
      obtain ⟨w', c', v⟩ := r
      simp only [runPhases, hh]
      exact (ih w' (recordPhase c' p v)).trans (hp p w c _ hh)

theorem runPhases_phaseResults_keys (h : Handler) (hp : PreservesKey h "phaseResults")
    (ps : List String) :
    ∀ (w : World) (c cfin : JSObj),
      ps.Nodup → (∀ p ∈ ps, p ∉ objKeys (asObj (oget c "phaseResults"))) →
      (runPhases h ps w c).res = .ok cfin →
      objKeys (asObj (oget cfin "phaseResults")) =
        objKeys (asObj (oget c "phaseResults")) ++ ps := by
  induction ps with
  | nil =>
    intro w c cfin _ _ hres
    simp only [runPhases] at hres
    cases hres
    simp
  | cons p ps ih =>
    intro w c cfin hnd hfresh hres
    cases hh : h p w c with
    | error e => simp [runPhases, hh] at hres
    | ok r =>
      obtain ⟨w', c', v⟩ := r
      simp only [runPhases, hh] at hres
      have hc' : oget c' "phaseResults" = oget c "phaseResults" := hp p w c _ hh
      have hrec : oget (recordPhase c' p v) "phaseResults" =
          .vObj (oset (asObj (oget c "phaseResults")) p v) := by
        rw [oget_recordPhase_self, hc']
      have hkeys : objKeys (asObj (oget (recordPhase c' p v) "phaseResults")) =
          objKeys (asObj (oget c "phaseResults")) ++ [p] := by
        rw [hrec]
        exact objKeys_oset_not_mem _ _ _ (hfresh p (by simp))
      have hfresh' : ∀ q ∈ ps, q ∉ objKeys (asObj (oget (recordPhase c' p v) "phaseResults")) := by
        intro q hq
        rw [hkeys]
        intro hmem
        rcases List.mem_append.mp hmem with hold | hnew
        · exact hfresh q (by simp [hq]) hold
        · rcases List.mem_singleton.mp hnew with rfl
          exact (List.nodup_cons.mp hnd).1 hq
      rw [ih w' (recordPhase c' p v) cfin (List.nodup_cons.mp hnd).2 hfresh' hres,
          hkeys, List.append_assoc]
      rfl

theorem baseHandler_frame : ∀ p w c r, baseHandler p w c = .ok r → r.1 = w ∧ r.2.1 = c := by
  intro p w c r hh
  unfold baseHandler at hh
  split at hh
  · cases hh; exact ⟨rfl, rfl⟩
  · unfold baseParametersPhase at hh
    split at hh
    · simp at hh
    · split at hh
      · simp at hh
      · cases hh; exact ⟨rfl, rfl⟩
  · cases hh; exact ⟨rfl, rfl⟩
  · cases hh; exact ⟨rfl, rfl⟩
  · cases hh; exact ⟨rfl, rfl⟩
  · cases hh; exact ⟨rfl, rfl⟩

theorem messageHandler_frame : ∀ p w c r, messageHandler p w c = .ok r →
    r.1 = w ∧ r.2.1 = c := by
  intro p w c r hh
  unfold messageHandler at hh
  split at hh
  · unfold messageWorkflowPhase handleNewMessage handleReadMessages at hh
    repeat' split at hh
    all_goals (cases hh; exact ⟨rfl, rfl⟩)
  · exact baseHandler_frame _ _ _ _ hh

theorem message9Handler_frame : ∀ p w c r, message9Handler p w c = .ok r →
    r.1 = w ∧ r.2.1 = c := by
  intro p w c r hh
  unfold message9Handler at hh
  split at hh
  · unfold messageWorkflowPhase9 at hh
    split at hh
    · unfold handleNewMessage9 at hh
      simp only [Bool.not_eq_true'] at hh
      by_cases hm : truthy (messageContent9 c) = false
      · rw [if_pos hm] at hh
        simp at hh
      · rw [if_neg hm] at hh
        cases hh; exact ⟨rfl, rfl⟩
    · split at hh
      · unfold handleReadMessages at hh
        cases hh; exact ⟨rfl, rfl⟩
      · cases hh; exact ⟨rfl, rfl⟩
  · unfold messageValidationPhase9 validateWithRules at hh
    simp only [asObj, oget, truthy] at hh
    repeat' split at hh
    all_goals (first | (cases hh; exact ⟨rfl, rfl⟩) | simp at hh)
  · exact baseHandler_frame _ _ _ _ hh

theorem systemHandler_frame : ∀ p w c r, systemHandler p w c = .ok r →
    r.1 = w ∧ r.2.1 = c := by
  intro p w c r hh
  unfold systemHandler at hh
  split at hh
  · unfold systemWorkflowPhase at hh
    split at hh
    · unfold handleSystemOn at hh
      cases hh; exact ⟨rfl, rfl⟩
    · split at hh
      · unfold handleSystemHealth at hh
        cases hh; exact ⟨rfl, rfl⟩
      · split at hh
        · unfold handleSystemManifest at hh
          simp only [] at hh
          repeat' split at hh
          all_goals (cases hh; exact ⟨rfl, rfl⟩)
        · cases hh; exact ⟨rfl, rfl⟩
  · exact baseHandler_frame _ _ _ _ hh

theorem metaHandler_ctx : ∀ p w c r, metaHandler p w c = .ok r →
    r.2.1 = c ∧ r.1.settings = w.settings := by
  intro p w c r hh
  unfold metaHandler at hh
  split at hh
  · unfold metaWorkflowPhase handleContext at hh
    repeat' split at hh
    all_goals (first | (cases hh; exact ⟨rfl, rfl⟩) | simp at hh)
  · obtain ⟨hw, hc⟩ := baseHandler_frame _ _ _ _ hh
    exact ⟨hc, by rw [hw]⟩

theorem metaHandler_store_workflow : ∀ w c r, metaHandler "workflow" w c = .ok r →
    (∃ app, r.1.store = w.store ++ app) ∨ r.1.store = [] := by
  intro w c r hh
  have hh' : metaWorkflowPhase w c = .ok r := hh
  unfold metaWorkflowPhase handleContext at hh'
  repeat' split at hh'
  all_goals
    (first
      | (cases hh'; exact .inl ⟨_, rfl⟩)
      | (cases hh'; exact .inl ⟨[], (List.append_nil _).symm⟩)
      | (cases hh'; exact .inr rfl)
      | simp at hh')

theorem metaHandler_eq_base (p : String) (hp : p ≠ "workflow") (w : World) (c : JSObj) :
    metaHandler p w c = baseHandler p w c := by
  unfold metaHandler
  split
  · exact absurd rfl hp
  · rfl

theorem agentHandler_frame : ∀ p w c r, agentHandler p w c = .ok r →
    r.2.1 = c ∧ r.1.store = w.store := by
  intro p w c r hh
  unfold agentHandler at hh
  split at hh
  · unfold agentWorkflowPhase at hh
    split at hh
    · unfold handleSwitch at hh
      simp only [] at hh
      split at hh
      · simp at hh
      · split at hh
        · simp at hh
        · cases hh; exact ⟨rfl, rfl⟩
    · split at hh
      · unfold handleStatus at hh
        cases hh; exact ⟨rfl, rfl⟩
      · split at hh
        · unfold handleList at hh
          cases hh; exact ⟨rfl, rfl⟩
        · split at hh
          · unfold handleReset at hh
            cases hh; exact ⟨rfl, rfl⟩
          · cases hh; exact ⟨rfl, rfl⟩
  · obtain ⟨hw, hc⟩ := baseHandler_frame _ _ _ _ hh
    exact ⟨hc, by rw [hw]⟩

/-- The critic phases never change the world, and only write the context
properties `personality`, `params`, `sourceContent`, `previousCritique`,
`critique` and `result`. -/
theorem criticHandler_frame : ∀ p w c r, criticHandler p w c = .ok r →
    r.1 = w ∧ ∀ k, k ∉ ["personality", "params", "sourceContent",
      "previousCritique", "critique", "result"] → oget r.2.1 k = oget c k := by
  intro p w c r hh
  unfold criticHandler at hh
  split at hh
  · unfold criticInitializationPhase at hh
    cases hh
    refine ⟨rfl, fun k hk => ?_⟩
    simp only [List.mem_cons, List.not_mem_nil, or_false] at hk
    push_neg at hk
    exact oget_oset_ne _ _ _ _ hk.1
  · unfold criticParametersPhase at hh
    split at hh
    · simp at hh
    · cases hh
      refine ⟨rfl, fun k hk => ?_⟩
      simp only [List.mem_cons, List.not_mem_nil, or_false] at hk
      push_neg at hk
      obtain ⟨h1, h2, h3, h4, h5, h6⟩ := hk
      rw [oget_ite_oset _ _ _ _ _ h4, oget_oset_ne _ _ _ _ h3, oget_oset_ne _ _ _ _ h2]
  · unfold criticWorkflowPhase at hh
    cases hh
    refine ⟨rfl, fun k hk => ?_⟩
    simp only [List.mem_cons, List.not_mem_nil, or_false] at hk
    push_neg at hk
    exact oget_oset_ne _ _ _ _ hk.2.2.2.2.1
  · unfold criticValidationPhase at hh
    cases hh; exact ⟨rfl, fun k _ => rfl⟩
  · unfold criticOutputPhase at hh
    cases hh
    refine ⟨rfl, fun k hk => ?_⟩
    simp only [List.mem_cons, List.not_mem_nil, or_false] at hk
    push_neg at hk
    exact oget_oset_ne _ _ _ _ hk.2.2.2.2.2
  · obtain ⟨hw, hc⟩ := baseHandler_frame _ _ _ _ hh
    exact ⟨hw, fun k _ => by rw [hc]⟩

theorem runPhases_store_all (h : Handler) (ps : List String)
    (hp : ∀ p ∈ ps, ∀ w c r, h p w c = .ok r → r.1.store = w.store) :
    ∀ w c, (runPhases h ps w c).world.store = w.store := by
  induction ps with
  | nil => intro w c; rfl
  | cons p ps ih =>
    intro w c
    cases hh : h p w c with
    | error e => simp [runPhases, hh]
    | ok r =>
      obtain ⟨w', c', v⟩ := r
      simp only [runPhases, hh]
      exact (ih (fun q hq => hp q (List.mem_cons_of_mem _ hq)) w' (recordPhase c' p v)).trans
        (congrArg World.store (show (⟨w', c', v⟩ : World × JSObj × Value).1 = _ from rfl) ▸
          hp p (List.mem_cons_self _ _) w c _ hh)

theorem runPhases_store_single (h : Handler) (ps : List String)
    (hp : ∀ p ∈ ps, p ≠ "workflow" → ∀ w c r, h p w c = .ok r → r.1.store = w.store)
    (hw : ∀ w c r, h "workflow" w c = .ok r →
      (∃ app, r.1.store = w.store ++ app) ∨ r.1.store = [])
    (hcount : ps.count "workflow" ≤ 1) :
    ∀ w c, (∃ app, (runPhases h ps w c).world.store = w.store ++ app) ∨
           (runPhases h ps w c).world.store = [] := by
  induction ps with
  | nil => intro w c; exact .inl ⟨[], (List.append_nil _).symm⟩
  | cons p ps ih =>
    intro w c
    cases hh : h p w c with
    | error e =>
      simp only [runPhases, hh]
      exact .inl ⟨[], (List.append_nil _).symm⟩
    | ok r =>
      obtain ⟨w', c', v⟩ := r
      simp only [runPhases, hh]
      by_cases hpw : p = "workflow"
      · subst hpw
        have hcz : ps.count "workflow" = 0 := by
          rw [List.count_cons_self] at hcount
          omega
        have hnotin : "workflow" ∉ ps := List.count_eq_zero.mp hcz
        have hpres : ∀ q ∈ ps, ∀ w c r, h q w c = .ok r → r.1.store = w.store := by
          intro q hq
          exact hp q (List.mem_cons_of_mem _ hq) (fun hqq => hnotin (hqq ▸ hq))
        have hrest := runPhases_store_all h ps hpres w' (recordPhase c' "workflow" v)
        rcases hw w c _ hh with ⟨app, happ⟩ | hclear
        · exact .inl ⟨app, hrest.trans happ⟩
        · exact .inr (hrest.trans hclear)
      · have hstep : w'.store = w.store :=
          hp p (List.mem_cons_self _ _) hpw w c _ hh
        have hcount' : ps.count "workflow" ≤ 1 := by
          rw [List.count_cons_of_ne (fun hx => hpw hx.symm)] at hcount
          exact hcount
        have hp' : ∀ q ∈ ps, q ≠ "workflow" → ∀ w c r, h q w c = .ok r → r.1.store = w.store :=
          fun q hq => hp q (List.mem_cons_of_mem _ hq)
        rcases ih hp' hcount' w' (recordPhase c' p v) with ⟨app, happ⟩ | hclear
        · exact .inl ⟨app, happ.trans (by rw [hstep])⟩
        · exact .inr hclear

theorem messageHandler_store : ∀ p w c r, messageHandler p w c = .ok r →
    r.1.store = w.store :=
  fun p w c r hh => congrArg World.store (messageHandler_frame p w c r hh).1

theorem systemHandler_store : ∀ p w c r, systemHandler p w c = .ok r →
    r.1.store = w.store :=
  fun p w c r hh => congrArg World.store (systemHandler_frame p w c r hh).1

theorem agentHandler_store : ∀ p w c r, agentHandler p w c = .ok r →
    r.1.store = w.store :=
  fun p w c r hh => (agentHandler_frame p w c r hh).2

theorem criticHandler_store : ∀ p w c r, criticHandler p w c = .ok r →
    r.1.store = w.store :=
  fun p w c r hh => congrArg World.store (criticHandler_frame p w c r hh).1

theorem metaHandler_store_pres (p : String) (hpw : p ≠ "workflow") :
    ∀ w c r, metaHandler p w c = .ok r → r.1.store = w.store := by
  intro w c r hh
  rw [metaHandler_eq_base p hpw] at hh
  exact congrArg World.store (baseHandler_frame _ _ _ _ hh).1

/-! ## Claim theorems -/

/-- C3:  For every dispatch that enters the phase pipeline, the phases
executed to completion are a prefix of
`[initialization, parameters, workflow, validation, output]`; they are
exactly that sequence (in order) iff every handler returned normally, so a run
in which a handler throws completes a strict prefix of it; together with the
aborted phase the trace is still a prefix (no phase skipped, the throwing
phase's successors never run), and the phase list has no duplicates (no phase
runs twice). -/
theorem c3_phase_order (h : Handler) (w : World) (c : JSObj) :
    (executePipeline h w c).completed <+: PHASES ∧
    ((executePipeline h w c).completed = PHASES ↔
      isOkE (executePipeline h w c).res = true) ∧
    ((executePipeline h w c).completed ++ (executePipeline h w c).aborted.toList) <+:
      PHASES ∧
    PHASES.Nodup := by
  obtain ⟨h1, h2, h3, _⟩ := executePipeline_trace h w c
  obtain ⟨g1, g2, g3⟩ := runPhases_spec h PHASES w (oset c "phaseResults" (.vObj []))
  rw [h1, h2, h3]
  exact ⟨g1, g2, g3, by decide⟩

/-- C2 (counterexample):  Dispatching `message:new` with
`{message: "hi", to: "discussion-moderator"}` through the `part_008`
orchestrator resolves successfully, but not to
`{success: true, action: "created", message: {content: "hi",
to: "discussion-moderator"}}`: the resolved value has no top-level `success`
property at all (it is the `phaseResults` map). -/
theorem c2_counterexample :
    isOkE (executeCommand8 [] loadDefaultSettings "T0" noFs [] "message:new"
        [("message", .vStr "hi"), ("to", .vStr "discussion-moderator")]).result = true ∧
    okValueD (executeCommand8 [] loadDefaultSettings "T0" noFs [] "message:new"
        [("message", .vStr "hi"), ("to", .vStr "discussion-moderator")]).result ≠
      .vObj [("success", .vBool true), ("action", .vStr "created"),
             ("message", .vObj [("content", .vStr "hi"),
                                ("to", .vStr "discussion-moderator")])] ∧
    oget (asObj (okValueD (executeCommand8 [] loadDefaultSettings "T0" noFs [] "message:new"
        [("message", .vStr "hi"), ("to", .vStr "discussion-moderator")]).result))
      "success" = .vUndefined := by
  refine ⟨?_, ?_, ?_⟩ <;> (simp only [executeCommand8]; decide)

/-- C2 (amended):  The scenario dispatch resolves (for any clock value) to
the accumulated `phaseResults` map; the claimed
`{success: true, action: "created", message: …}` object appears as its
`workflow` entry, and the message payload additionally carries `timestamp` and
`formattedContent`. -/
theorem c2_amended (ts : String) :
    (executeCommand8 [] loadDefaultSettings ts noFs [] "message:new"
        [("message", .vStr "hi"), ("to", .vStr "discussion-moderator")]).result =
      .ok (.vObj
        [("initialization", .vObj [("status", .vStr "initialized")]),
         ("parameters", .vObj [("status", .vStr "parameters_processed"),
            ("params", .vObj [("message", .vStr "hi"),
                              ("to", .vStr "discussion-moderator")])]),
         ("workflow", .vObj [("success", .vBool true), ("action", .vStr "created"),
            ("message", .vObj [("content", .vStr "hi"),
                               ("to", .vStr "discussion-moderator"),
                               ("timestamp", .vStr ts),
                               ("formattedContent",
                                .vStr "Message: hi (to: discussion-moderator)")])]),
         ("validation", .vObj [("status", .vStr "validated")]),
         ("output", .vObj [("status", .vStr "output_formatted")])]) := by
  rfl

/-- C8 (code bug):  `output:verbosity` is not dispatchable: the `part_007`
orchestrator's effective registry lacks the `output` category (its second
`initialize` definition shadows the one that would register `OutputWorkflow`),
so the dispatch rejects with the unknown-category error, not with the message
listing the enumeration — while the `OutputWorkflow` handler itself does
reject an invalid level listing `{low, medium, high, off}` leaving the
settings unchanged, and does set the session verbosity for a valid level. -/
theorem c8_output_verbosity :
    (executeCommand7 loadDefaultSettings "T0" noFs [] "output:verbosity"
        [("level", .vStr "extreme")]).result =
      .error "No workflow found for category: output" ∧
    (executeCommand7 loadDefaultSettings "T0" noFs [] "output:verbosity"
        [("level", .vStr "extreme")]).settings = loadDefaultSettings ∧
    handleVerbosity world0 [("params", .vObj [("level", .vStr "extreme")])] =
      .error "Invalid verbosity level. Valid options: low, medium, high, off" ∧
    (match handleVerbosity world0 [("params", .vObj [("level", .vStr "low")])] with
     | .ok r => r.1.settings.verbosity
     | .error _ => "") = "low" := by
  exact ⟨rfl, rfl, rfl, rfl⟩

/-- C1 (counterexample):  Dispatching the unknown-category command
`bogus:foo` through the `part_008` orchestrator with a `context` parameter
throws before any phase runs, but it is not side-effect free: the Global
Context Store gains the context entry (it is pushed before the category
lookup). -/
theorem c1_counterexample :
    (executeCommand8 [] loadDefaultSettings "T0" noFs [] "bogus:foo"
        [("context", .vStr "note")]).result =
      .error "No workflow found for category: bogus" ∧
    (executeCommand8 [] loadDefaultSettings "T0" noFs [] "bogus:foo"
        [("context", .vStr "note")]).store =
      [⟨"bogus:foo", .vStr "note", "T0"⟩] ∧
    ([] : List Entry) ≠ [⟨"bogus:foo", .vStr "note", "T0"⟩] := by
  refine ⟨by rfl, by rfl, by decide⟩

/-- C1 (amended):  For every dispatch whose category has no registered
workflow or whose command is absent from the matched workflow's
`supportedCommands`, `part_008`'s `executeCommand` throws before any phase
handler runs, writes no trace file, and leaves the Session Settings
unchanged; however the Global Context Store is not left unchanged in general:
when the params carry a truthy `context` entry, that entry is appended to the
store before the category and support checks. -/
theorem c1_unregistered_no_phases (store : List Entry) (settings : Settings)
    (ts : String) (fsE : String → Bool) (ad : List (String × String))
    (command : String) (params : JSObj)
    (h : orch8Workflows.lookup (categoryOf command) = none ∨
         ∃ wf, orch8Workflows.lookup (categoryOf command) = some wf ∧
               wf.supported.contains command = false) :
    (∃ e, (executeCommand8 store settings ts fsE ad command params).result = .error e) ∧
    (executeCommand8 store settings ts fsE ad command params).completed = [] ∧
    (executeCommand8 store settings ts fsE ad command params).aborted = none ∧
    (executeCommand8 store settings ts fsE ad command params).writes = [] ∧
    (executeCommand8 store settings ts fsE ad command params).settings = settings ∧
    (executeCommand8 store settings ts fsE ad command params).store =
      store ++ (if truthy (oget params "context") then
        [⟨command, oget params "context", ts⟩] else []) := by
  rcases h with hnone | ⟨wf, hwf, hsup⟩
  · have hred : executeCommand8 store settings ts fsE ad command params =
        ⟨.error ("No workflow found for category: " ++ categoryOf command),
         orchStore1 store ts command params, settings, [], [], none⟩ := by
      simp only [executeCommand8, hnone]
    rw [hred]
    exact ⟨⟨_, rfl⟩, rfl, rfl, rfl, rfl, orchStore1_eq store ts command params⟩
  · have hred : executeCommand8 store settings ts fsE ad command params =
        ⟨.error ("Command not supported: " ++ command),
         orchStore1 store ts command params, settings, [], [], none⟩ := by
      simp only [executeCommand8, hwf, hsup]
      rfl
    rw [hred]
    exact ⟨⟨_, rfl⟩, rfl, rfl, rfl, rfl, orchStore1_eq store ts command params⟩

/-- Witness for the C1 theorem at the concrete unknown-category dispatch. -/
theorem c1_unregistered_no_phases_witness :
    (∃ e, (executeCommand8 [] loadDefaultSettings "T0" noFs [] "bogus:foo"
        [("context", .vStr "note")]).result = .error e) ∧
    (executeCommand8 [] loadDefaultSettings "T0" noFs [] "bogus:foo"
        [("context", .vStr "note")]).completed = [] ∧
    (executeCommand8 [] loadDefaultSettings "T0" noFs [] "bogus:foo"
        [("context", .vStr "note")]).aborted = none ∧
    (executeCommand8 [] loadDefaultSettings "T0" noFs [] "bogus:foo"
        [("context", .vStr "note")]).writes = [] ∧
    (executeCommand8 [] loadDefaultSettings "T0" noFs [] "bogus:foo"
        [("context", .vStr "note")]).settings = loadDefaultSettings ∧
    (executeCommand8 [] loadDefaultSettings "T0" noFs [] "bogus:foo"
        [("context", .vStr "note")]).store =
      [] ++ (if truthy (oget [("context", .vStr "note")] "context") then
        [⟨"bogus:foo", oget [("context", .vStr "note")] "context", "T0"⟩] else []) :=
  c1_unregistered_no_phases [] loadDefaultSettings "T0" noFs [] "bogus:foo"
    [("context", .vStr "note")] (.inl rfl)

theorem executePipeline_store_preserving (h : Handler)
    (hp : ∀ p w c r, h p w c = .ok r → r.1.store = w.store) (w : World) (c : JSObj) :
    (executePipeline h w c).world.store = w.store := by
  rw [(executePipeline_trace h w c).2.2.2]
  exact runPhases_store_all h PHASES (fun p _ => hp p) w _

theorem executePipeline_store_meta (w : World) (c : JSObj) :
    (∃ app, (executePipeline metaHandler w c).world.store = w.store ++ app) ∨
    (executePipeline metaHandler w c).world.store = [] := by
  rw [(executePipeline_trace metaHandler w c).2.2.2]
  exact runPhases_store_single metaHandler PHASES
    (fun p _ hpw => metaHandler_store_pres p hpw)
    (fun w c r hh => metaHandler_store_workflow w c r hh)
    (by decide) w _

theorem store_ext_trans (s2 app1 : List Entry) {s1 x : List Entry}
    (h1 : s1 = s2 ++ app1)
    (h : (∃ app, x = s1 ++ app) ∨ x = []) :
    (∃ app, x = s2 ++ app) ∨ x = [] := by
  rcases h with ⟨app, happ⟩ | hnil
  · exact .inl ⟨app1 ++ app, by rw [happ, h1, List.append_assoc]⟩
  · exact .inr hnil

/-- C6 (counterexample):  `meta:context --add` performs no length check:
dispatching it with a 1001-character content succeeds and leaves an entry of
content length 1001 in the Global Context Store, refuting the ≤1000-character
invariant. -/
theorem c6_counterexample :
    longText.length = 1001 ∧
    isOkE (executeCommand8 [] loadDefaultSettings "T0" noFs [] "meta:context"
        [("add", .vStr longText)]).result = true ∧
    (executeCommand8 [] loadDefaultSettings "T0" noFs [] "meta:context"
        [("add", .vStr longText)]).store =
      [⟨"meta:context", .vStr longText, "T0"⟩] := by
  refine ⟨?_, by rfl, by rfl⟩
  rw [show longText.length = (List.replicate 1001 'a').length from rfl,
      List.length_replicate]

/-- C6 (amended):  After any single `part_008` dispatch, the Global
Context Store is either the previous store with some entries appended (so
existing entries are never mutated or removed individually) or the empty
store (the bulk clear).  The claimed ≤1000-character content bound does not
hold (see the counterexample): neither `meta:context --add` nor the
orchestrator's context push checks the content length before appending. -/
theorem c6_store_append_or_clear (store : List Entry) (settings : Settings)
    (ts : String) (fsE : String → Bool) (ad : List (String × String))
    (command : String) (params : JSObj) :
    (∃ app, (executeCommand8 store settings ts fsE ad command params).store =
       store ++ app) ∨
    (executeCommand8 store settings ts fsE ad command params).store = [] := by
  simp only [executeCommand8]
  cases hlk : orch8Workflows.lookup (categoryOf command) with
  | none =>
    simp only [hlk]
    exact .inl ⟨_, orchStore1_eq store ts command params⟩
  | some wf =>
    simp only [hlk]
    split
    · exact .inl ⟨_, orchStore1_eq store ts command params⟩
    · have hpipe : ∀ w c, (∃ app, (executePipeline wf.handler w c).world.store =
          w.store ++ app) ∨ (executePipeline wf.handler w c).world.store = [] := by
        have : wf = messageWf ∨ wf = systemWf ∨ wf = agentWf ∨ wf = metaWf ∨
            wf = criticWf := by
          simp only [orch8Workflows, List.lookup] at hlk
          repeat' split at hlk
          all_goals simp_all
        rcases this with rfl | rfl | rfl | rfl | rfl
        · exact fun w c => .inl ⟨[], by
            rw [executePipeline_store_preserving messageWf.handler messageHandler_store w c]
            simp⟩
        · exact fun w c => .inl ⟨[], by
            rw [executePipeline_store_preserving systemWf.handler systemHandler_store w c]
            simp⟩
        · exact fun w c => .inl ⟨[], by
            rw [executePipeline_store_preserving agentWf.handler agentHandler_store w c]
            simp⟩
        · exact fun w c => executePipeline_store_meta w c
        · exact fun w c => .inl ⟨[], by
            rw [executePipeline_store_preserving criticWf.handler criticHandler_store w c]
            simp⟩
      cases hres : (executePipeline wf.handler
          ⟨orchStore1 store ts command params, settings, ts, fsE, ad⟩
          (buildCtx0 (orchStore1 store ts command params) command params)).res with
      | error e =>
        simp only [hres]
        exact store_ext_trans store _ (orchStore1_eq store ts command params) (hpipe _ _)
      | ok t =>
        obtain ⟨cfin, result⟩ := t
        simp only [hres]
        exact store_ext_trans store _ (orchStore1_eq store ts command params) (hpipe _ _)

/-- C4 (counterexample):  A `critic:harsh` dispatch with a context of
length 1001 does not abort in the parameters phase: the whole pipeline runs
(including the workflow phase) and the dispatch succeeds, because
`CriticWorkflow.executeParametersPhase` overrides the base phase and performs
no `save`/`context` structural checks. -/
theorem c4_counterexample :
    longText.length = 1001 ∧
    (executeCommand8 [] loadDefaultSettings "T0" noFs [] "critic:harsh"
        [("source", .vStr "hello"), ("context", .vStr longText)]).completed = PHASES ∧
    isOkE (executeCommand8 [] loadDefaultSettings "T0" noFs [] "critic:harsh"
        [("source", .vStr "hello"), ("context", .vStr longText)]).result = true := by
  refine ⟨?_, by rfl, by rfl⟩
  rw [show longText.length = (List.replicate 1001 'a').length from rfl,
      List.length_replicate]

/-- C4 (amended):  The base parameters phase enforces the two structural
checks — a truthy `save` that does not start with `/` or end in `.json`
throws, a `context` longer than 1000 characters throws, and a `context` of
length ≤ 1000 (with no save) passes — and this aborts a base-pipeline command
(e.g. a `message:*` command) in the parameters phase, before the workflow
phase; but it does not hold for every category: the critic workflow overrides
the parameters phase with only a `source` presence check and skips the
`save`/`context` checks entirely. -/
theorem c4_parameters_checks :
    (∀ (w : World) (c : JSObj) (s : String), oget c "save" = .vStr s → s ≠ "" →
       (jsStartsWith s "/" && jsEndsWith s ".json") = false →
       baseHandler "parameters" w c =
         .error "Save path must be absolute and end with .json") ∧
    (∀ (w : World) (c : JSObj) (t : String), oget c "save" = .vUndefined →
       oget c "context" = .vStr t → 1000 < t.length →
       baseHandler "parameters" w c =
         .error "Context must be less than 1000 characters") ∧
    (∀ (w : World) (c : JSObj) (t : String), oget c "save" = .vUndefined →
       oget c "context" = .vStr t → t.length ≤ 1000 →
       baseHandler "parameters" w c = .ok (w, c,
         .vObj [("status", .vStr "parameters_processed"), ("params", oget c "params")])) ∧
    (∀ (w : World) (c : JSObj), truthy (paramGet c "source") = true →
       isOkE (criticHandler "parameters" w c) = true) ∧
    (∀ (w : World) (c : JSObj) (t : String), oget c "save" = .vUndefined →
       oget c "context" = .vStr t → 1000 < t.length →
       (executePipeline messageHandler w c).aborted = some "parameters" ∧
       (executePipeline messageHandler w c).completed = ["initialization"]) := by
  have hne_of_len : ∀ t : String, 1000 < t.length → (t != "") = true := by
    intro t hlen
    have : t ≠ "" := by
      intro h0
      rw [h0] at hlen
      simp [String.length] at hlen
    simpa using this
  have hsave_bad : ∀ (w : World) (c : JSObj) (s : String), oget c "save" = .vStr s →
      s ≠ "" → (jsStartsWith s "/" && jsEndsWith s ".json") = false →
      baseParametersPhase w c = .error "Save path must be absolute and end with .json" := by
    intro w c s hs hne hbad
    unfold baseParametersPhase
    rw [hs]
    have hcond : (truthy (Value.vStr s) &&
        (!jsStartsWith (asStr (Value.vStr s)) "/" ||
         !jsEndsWith (asStr (Value.vStr s)) ".json")) = true := by
      simp only [truthy, asStr]
      rcases Bool.and_eq_false_iff.mp hbad with hb | hb <;> simp [hb, hne]
    rw [if_pos hcond]
  have hctx_long : ∀ (w : World) (c : JSObj) (t : String), oget c "save" = .vUndefined →
      oget c "context" = .vStr t → 1000 < t.length →
      baseParametersPhase w c = .error "Context must be less than 1000 characters" := by
    intro w c t hs hc hlen
    unfold baseParametersPhase
    rw [hs, hc]
    have h1 : (truthy Value.vUndefined &&
        (!jsStartsWith (asStr Value.vUndefined) "/" ||
         !jsEndsWith (asStr Value.vUndefined) ".json")) = false := by
      simp [truthy]
    rw [if_neg (by simp [h1])]
    have h2 : (truthy (Value.vStr t) && decide ((asStr (Value.vStr t)).length > 1000)) = true := by
      simp only [truthy, asStr]
      rw [hne_of_len t hlen, decide_eq_true hlen]
      rfl
    rw [if_pos h2]
  have hctx_ok : ∀ (w : World) (c : JSObj) (t : String), oget c "save" = .vUndefined →
      oget c "context" = .vStr t → t.length ≤ 1000 →
      baseParametersPhase w c = .ok (w, c,
        .vObj [("status", .vStr "parameters_processed"), ("params", oget c "params")]) := by
    intro w c t hs hc hlen
    unfold baseParametersPhase
    rw [hs, hc]
    have h1 : (truthy Value.vUndefined &&
        (!jsStartsWith (asStr Value.vUndefined) "/" ||
         !jsEndsWith (asStr Value.vUndefined) ".json")) = false := by
      simp [truthy]
    rw [if_neg (by simp [h1])]
    have h2 : (truthy (Value.vStr t) && decide ((asStr (Value.vStr t)).length > 1000)) = false := by
      simp only [truthy, asStr]
      have : ¬((t.length : ℕ) > 1000) := Nat.not_lt.mpr hlen
      simp [decide_eq_false this]
    rw [if_neg (by simp [h2])]
  refine ⟨fun w c s hs hne hbad => hsave_bad w c s hs hne hbad,
          fun w c t hs hc hlen => hctx_long w c t hs hc hlen,
          fun w c t hs hc hlen => hctx_ok w c t hs hc hlen,
          ?_, ?_⟩
  · intro w c hsrc
    show isOkE (criticParametersPhase w c) = true
    unfold criticParametersPhase
    rw [if_neg (by simp [hsrc])]
    rfl
  · intro w c t hs hc hlen
    have e1 : messageHandler "initialization" w (oset c "phaseResults" (.vObj [])) =
        .ok (w, oset c "phaseResults" (.vObj []), .vObj [("status", .vStr "initialized")]) := rfl
    have hs1 : oget (recordPhase (oset c "phaseResults" (.vObj [])) "initialization"
        (.vObj [("status", .vStr "initialized")])) "save" = .vUndefined := by
      rw [oget_recordPhase_ne _ _ _ _ (by decide),
          oget_oset_ne _ _ _ _ (by decide), hs]
    have hc1 : oget (recordPhase (oset c "phaseResults" (.vObj [])) "initialization"
        (.vObj [("status", .vStr "initialized")])) "context" = .vStr t := by
      rw [oget_recordPhase_ne _ _ _ _ (by decide),
          oget_oset_ne _ _ _ _ (by decide), hc]
    have e2 : messageHandler "parameters" w (recordPhase (oset c "phaseResults" (.vObj []))
        "initialization" (.vObj [("status", .vStr "initialized")])) =
        .error "Context must be less than 1000 characters" :=
      hctx_long w _ t hs1 hc1 hlen
    constructor <;>
      simp only [executePipeline, PHASES, runPhases, e1, e2]

/-- Witness for the C4 theorem at concrete contexts. -/
theorem c4_parameters_checks_witness :
    baseHandler "parameters" world0 [("save", .vStr "rel.txt")] =
      .error "Save path must be absolute and end with .json" ∧
    baseHandler "parameters" world0 [("context", .vStr longText)] =
      .error "Context must be less than 1000 characters" ∧
    baseHandler "parameters" world0 [("context", .vStr "x")] =
      .ok (world0, [("context", .vStr "x")],
        .vObj [("status", .vStr "parameters_processed"),
               ("params", oget [("context", .vStr "x")] "params")]) ∧
    isOkE (criticHandler "parameters" world0
      [("params", .vObj [("source", .vStr "hello")])]) = true ∧
    (executePipeline messageHandler world0 [("context", .vStr longText)]).aborted =
      some "parameters" := by
  have h := c4_parameters_checks
  have hlen : 1000 < longText.length := by
    rw [show longText.length = (List.replicate 1001 'a').length from rfl,
        List.length_replicate]
    omega
  exact ⟨h.1 world0 [("save", .vStr "rel.txt")] "rel.txt" rfl (by decide) (by decide),
         h.2.1 world0 [("context", .vStr longText)] longText rfl rfl hlen,
         h.2.2.1 world0 [("context", .vStr "x")] "x" rfl rfl (by decide),
         h.2.2.2.1 world0 [("params", .vObj [("source", .vStr "hello")])] (by decide),
         (h.2.2.2.2 world0 [("context", .vStr longText)] longText rfl rfl hlen).1⟩

/-- C7 (counterexample):  In the hooks `MessageWorkflow` (`message.js`),
`message:new` with no message body does not throw: the dispatch resolves as a
success whose created message has `undefined` content. -/
theorem c7_counterexample :
    (executeCommand8 [] loadDefaultSettings "T0" noFs [] "message:new" []).result =
      .ok (.vObj
        [("initialization", .vObj [("status", .vStr "initialized")]),
         ("parameters", .vObj [("status", .vStr "parameters_processed"),
            ("params", .vObj [])]),
         ("workflow", .vObj [("success", .vBool true), ("action", .vStr "created"),
            ("message", .vObj [("content", .vUndefined), ("to", .vUndefined),
              ("timestamp", .vStr "T0"),
              ("formattedContent", .vStr "Message: undefined (to: undefined)")])]),
         ("validation", .vObj [("status", .vStr "validated")]),
         ("output", .vObj [("status", .vStr "output_formatted")])]) := by
  rfl

/-- C7 (amended):  In the `part_009` `MessageWorkflow` variant, the
workflow phase throws the descriptive missing-parameter error synchronously
when `message:new` has no message body (and no positional args), aborting the
pipeline at the workflow phase so the dispatch does not resolve as a success;
the hooks variant (see counterexample) performs no such check. -/
theorem c7_message9_requires_body :
    (∀ (w : World) (c : JSObj), oget c "command" = .vStr "message:new" →
       truthy (paramGet c "message") = false → oget c "args" = .vUndefined →
       message9Handler "workflow" w c =
         .error "Message content is required. Use --message \"your message\" or provide it as a positional argument.") ∧
    (∀ (w : World) (c : JSObj), oget c "command" = .vStr "message:new" →
       truthy (paramGet c "message") = false → oget c "args" = .vUndefined →
       oget c "save" = .vUndefined → oget c "context" = .vUndefined →
       (executePipeline message9Handler w c).aborted = some "workflow" ∧
       (executePipeline message9Handler w c).completed = ["initialization", "parameters"] ∧
       isOkE (executePipeline message9Handler w c).res = false) := by
  have hwf : ∀ (w : World) (c : JSObj), oget c "command" = .vStr "message:new" →
      truthy (paramGet c "message") = false → oget c "args" = .vUndefined →
      message9Handler "workflow" w c =
        .error "Message content is required. Use --message \"your message\" or provide it as a positional argument." := by
    intro w c hcmd hmsg hargs
    have hmc : messageContent9 c = paramGet c "message" := by
      simp [messageContent9, hargs, hmsg]
    show messageWorkflowPhase9 w c = _
    unfold messageWorkflowPhase9
    rw [if_pos hcmd]
    unfold handleNewMessage9
    rw [hmc, if_pos (by simp [hmsg])]
  refine ⟨hwf, ?_⟩
  intro w c hcmd hmsg hargs hsave hctxu
  have hoget1 : ∀ k, k ≠ "phaseResults" →
      oget (recordPhase (oset c "phaseResults" (.vObj [])) "initialization"
        (.vObj [("status", .vStr "initialized")])) k = oget c k := by
    intro k hk
    rw [oget_recordPhase_ne _ _ _ _ hk, oget_oset_ne _ _ _ _ hk]
  have e1 : message9Handler "initialization" w (oset c "phaseResults" (.vObj [])) =
      .ok (w, oset c "phaseResults" (.vObj []),
           .vObj [("status", .vStr "initialized")]) := rfl
  have e2 : message9Handler "parameters" w
      (recordPhase (oset c "phaseResults" (.vObj [])) "initialization"
        (.vObj [("status", .vStr "initialized")])) =
      .ok (w, recordPhase (oset c "phaseResults" (.vObj [])) "initialization"
        (.vObj [("status", .vStr "initialized")]),
        .vObj [("status", .vStr "parameters_processed"),
               ("params", oget (recordPhase (oset c "phaseResults" (.vObj []))
                  "initialization" (.vObj [("status", .vStr "initialized")])) "params")]) := by
    show baseParametersPhase w _ = _
    unfold baseParametersPhase
    rw [hoget1 "save" (by decide), hsave, hoget1 "context" (by decide), hctxu]
    rw [if_neg (by simp [truthy]), if_neg (by simp [truthy])]
  have hoget2 : ∀ k, k ≠ "phaseResults" →
      oget (recordPhase
        (recordPhase (oset c "phaseResults" (.vObj [])) "initialization"
          (.vObj [("status", .vStr "initialized")]))
        "parameters"
        (.vObj [("status", .vStr "parameters_processed"),
                ("params", oget (recordPhase (oset c "phaseResults" (.vObj []))
                   "initialization" (.vObj [("status", .vStr "initialized")])) "params")])) k =
      oget c k := by
    intro k hk
    rw [oget_recordPhase_ne _ _ _ _ hk, hoget1 k hk]
  have e3 : message9Handler "workflow" w
      (recordPhase
        (recordPhase (oset c "phaseResults" (.vObj [])) "initialization"
          (.vObj [("status", .vStr "initialized")]))
        "parameters"
        (.vObj [("status", .vStr "parameters_processed"),
                ("params", oget (recordPhase (oset c "phaseResults" (.vObj []))
                   "initialization" (.vObj [("status", .vStr "initialized")])) "params")])) =
      .error "Message content is required. Use --message \"your message\" or provide it as a positional argument." := by
    refine hwf w _ ((hoget2 "command" (by decide)).trans hcmd) ?_
      ((hoget2 "args" (by decide)).trans hargs)
    show truthy (oget (asObj (oget _ "params")) "message") = false
    rw [hoget2 "params" (by decide)]
    exact hmsg
  refine ⟨?_, ?_, ?_⟩ <;>
    (simp only [executePipeline, PHASES, runPhases, e1, e2, e3]; try rfl)

/-- Witness for the C7 theorem at a concrete body-less `message:new`
context. -/
theorem c7_message9_requires_body_witness :
    message9Handler "workflow" world0
      [("command", .vStr "message:new"), ("params", .vObj [])] =
      .error "Message content is required. Use --message \"your message\" or provide it as a positional argument." ∧
    (executePipeline message9Handler world0
      [("command", .vStr "message:new"), ("params", .vObj [])]).aborted =
      some "workflow" := by
  have h := c7_message9_requires_body
  exact ⟨h.1 world0 [("command", .vStr "message:new"), ("params", .vObj [])]
           rfl (by decide) rfl,
         (h.2 world0 [("command", .vStr "message:new"), ("params", .vObj [])]
           rfl (by decide) rfl rfl rfl).1⟩

theorem baseHandler_preservesKey (k : String) : PreservesKey baseHandler k :=
  fun p w c r hh => by rw [(baseHandler_frame p w c r hh).2]

theorem messageHandler_preservesKey (k : String) : PreservesKey messageHandler k :=
  fun p w c r hh => by rw [(messageHandler_frame p w c r hh).2]

theorem systemHandler_preservesKey (k : String) : PreservesKey systemHandler k :=
  fun p w c r hh => by rw [(systemHandler_frame p w c r hh).2]

theorem metaHandler_preservesKey (k : String) : PreservesKey metaHandler k :=
  fun p w c r hh => by rw [(metaHandler_ctx p w c r hh).1]

theorem agentHandler_preservesKey (k : String) : PreservesKey agentHandler k :=
  fun p w c r hh => by rw [(agentHandler_frame p w c r hh).1]

theorem criticHandler_preservesKey (k : String)
    (hk : k ∉ ["personality", "params", "sourceContent", "previousCritique",
               "critique", "result"]) :
    PreservesKey criticHandler k :=
  fun p w c r hh => (criticHandler_frame p w c r hh).2 k hk

/-- C5:  When the full pipeline runs (for any workflow whose phase
handlers leave `context.phaseResults` to the pipeline, as all of this
program's do): if the final `context.result` is set (truthy — every setter in
the program stores an object), that value is what `execute` returns; if it
was never set (still `undefined`), the accumulated `phaseResults` map is
returned instead as a normal (non-thrown) result, and that map has exactly
one entry per phase name, in phase order. -/
theorem c5_result_or_phaseResults (h : Handler) (w : World) (c : JSObj)
    (hp : PreservesKey h "phaseResults") :
    ∀ cfin ret, (executePipeline h w c).res = .ok (cfin, ret) →
      (truthy (oget cfin "result") = true → ret = oget cfin "result") ∧
      (truthy (oget cfin "result") = false →
        ret = oget cfin "phaseResults" ∧
        objKeys (asObj (oget cfin "phaseResults")) = PHASES) := by
  intro cfin ret hres
  simp only [executePipeline] at hres
  cases hr : (runPhases h PHASES w (oset c "phaseResults" (.vObj []))).res with
  | error e =>
    rw [hr] at hres
    simp at hres
  | ok c' =>
    rw [hr] at hres
    have hpair : (c', if truthy (oget c' "result") = true then oget c' "result"
        else oget c' "phaseResults") = (cfin, ret) := Except.ok.inj hres
    have hc : c' = cfin := congrArg Prod.fst hpair
    have hret : (if truthy (oget c' "result") = true then oget c' "result"
        else oget c' "phaseResults") = ret := congrArg Prod.snd hpair
    subst hc
    constructor
    · intro ht
      rw [← hret, if_pos ht]
    · intro hf
      refine ⟨by rw [← hret, if_neg (by simp [hf])], ?_⟩
      have hkeys := runPhases_phaseResults_keys h hp PHASES w
        (oset c "phaseResults" (.vObj [])) c' (by decide) ?_ hr
      · rw [hkeys, oget_oset_self]
        rfl
      · intro p _
        rw [oget_oset_self]
        simp [asObj, objKeys]

/-- Witness for the C5 theorem: the base pipeline on an empty context sets no
`result`, so the `phaseResults` map (one entry per phase) is returned. -/
theorem c5_result_or_phaseResults_witness :
    (executePipeline baseHandler world0 []).res =
      .ok ([("phaseResults", .vObj
        [("initialization", .vObj [("status", .vStr "initialized")]),
         ("parameters", .vObj [("status", .vStr "parameters_processed"),
                               ("params", .vUndefined)]),
         ("workflow", .vObj [("status", .vStr "workflow_completed")]),
         ("validation", .vObj [("status", .vStr "validated")]),
         ("output", .vObj [("status", .vStr "output_formatted")])])],
       .vObj
        [("initialization", .vObj [("status", .vStr "initialized")]),
         ("parameters", .vObj [("status", .vStr "parameters_processed"),
                               ("params", .vUndefined)]),
         ("workflow", .vObj [("status", .vStr "workflow_completed")]),
         ("validation", .vObj [("status", .vStr "validated")]),
         ("output", .vObj [("status", .vStr "output_formatted")])]) ∧
    (.vObj
        [("initialization", .vObj [("status", .vStr "initialized")]),
         ("parameters", .vObj [("status", .vStr "parameters_processed"),
                               ("params", .vUndefined)]),
         ("workflow", .vObj [("status", .vStr "workflow_completed")]),
         ("validation", .vObj [("status", .vStr "validated")]),
         ("output", .vObj [("status", .vStr "output_formatted")])] : Value) =
      oget [("phaseResults", .vObj
        [("initialization", .vObj [("status", .vStr "initialized")]),
         ("parameters", .vObj [("status", .vStr "parameters_processed"),
                               ("params", .vUndefined)]),
         ("workflow", .vObj [("status", .vStr "workflow_completed")]),
         ("validation", .vObj [("status", .vStr "validated")]),
         ("output", .vObj [("status", .vStr "output_formatted")])])] "phaseResults" ∧
    objKeys (asObj (oget [("phaseResults", .vObj
        [("initialization", .vObj [("status", .vStr "initialized")]),
         ("parameters", .vObj [("status", .vStr "parameters_processed"),
                               ("params", .vUndefined)]),
         ("workflow", .vObj [("status", .vStr "workflow_completed")]),
         ("validation", .vObj [("status", .vStr "validated")]),
         ("output", .vObj [("status", .vStr "output_formatted")])])] "phaseResults")) =
      PHASES := by
  have h := c5_result_or_phaseResults baseHandler world0 []
    (baseHandler_preservesKey "phaseResults") _ _ rfl
  exact ⟨rfl, (h.2 (by decide)).1, (h.2 (by decide)).2⟩

theorem buildCtx0_oget_command (st1 : List Entry) (command : String) (params : JSObj) :
    oget (buildCtx0 st1 command params) "command" = .vStr command := rfl

theorem buildCtx0_oget_save (st1 : List Entry) (command : String) (params : JSObj) :
    oget (buildCtx0 st1 command params) "save" =
      (match orchSaveOpt params with | some v => v | none => .vUndefined) := by
  unfold buildCtx0 globalParamsObj
  cases orchSaveOpt params <;> cases orchCtxOpt params <;> rfl

theorem orch8_handler_preservesKey (wf : WorkflowImpl) (cat : String)
    (hlk : orch8Workflows.lookup cat = some wf) (k : String)
    (hk : k ∉ ["personality", "params", "sourceContent", "previousCritique",
               "critique", "result"]) :
    PreservesKey wf.handler k := by
  have hwf : wf = messageWf ∨ wf = systemWf ∨ wf = agentWf ∨ wf = metaWf ∨
      wf = criticWf := by
    simp only [orch8Workflows, List.lookup] at hlk
    repeat' split at hlk
    all_goals simp_all
  rcases hwf with rfl | rfl | rfl | rfl | rfl
  · exact messageHandler_preservesKey k
  · exact systemHandler_preservesKey k
  · exact agentHandler_preservesKey k
  · exact metaHandler_preservesKey k
  · exact criticHandler_preservesKey k hk

theorem executePipeline_oget (h : Handler) (k : String) (hk : k ≠ "phaseResults")
    (hp : PreservesKey h k) (w : World) (c : JSObj) :
    ∀ cfin ret, (executePipeline h w c).res = .ok (cfin, ret) →
      oget cfin k = oget c k := by
  intro cfin ret hres
  simp only [executePipeline] at hres
  cases hr : (runPhases h PHASES w (oset c "phaseResults" (.vObj []))).res with
  | error e => rw [hr] at hres; simp at hres
  | ok c' =>
    rw [hr] at hres
    have hpair : (c', if truthy (oget c' "result") = true then oget c' "result"
        else oget c' "phaseResults") = (cfin, ret) := Except.ok.inj hres
    have hc : c' = cfin := congrArg Prod.fst hpair
    subst hc
    rw [runPhases_oget h k hk hp PHASES w _ c' hr, oget_oset_ne _ _ _ _ hk]

/-- C9:  A `part_008` dispatch with no truthy `save` parameter performs no
trace-file write; with `save` supplied (as a non-empty string `s`), a failed
dispatch writes nothing, and a successful one writes exactly one file, at
exactly the path `s`, containing the record whose `command` is the dispatched
command, whose `timestamp` is the dispatch clock, whose `result` is the
resolved value, and which carries `params` and `phaseResults` fields. -/
theorem c9_save_trace (store : List Entry) (settings : Settings) (ts : String)
    (fsE : String → Bool) (ad : List (String × String)) (command : String)
    (params : JSObj) :
    (truthy (oget params "save") = false →
       (executeCommand8 store settings ts fsE ad command params).writes = []) ∧
    (∀ s : String, oget params "save" = .vStr s → s ≠ "" →
       (∀ e, (executeCommand8 store settings ts fsE ad command params).result =
          .error e →
          (executeCommand8 store settings ts fsE ad command params).writes = []) ∧
       (∀ v, (executeCommand8 store settings ts fsE ad command params).result = .ok v →
          ∃ rec : JSObj,
            (executeCommand8 store settings ts fsE ad command params).writes =
              [(s, .vObj rec)] ∧
            oget rec "command" = .vStr command ∧
            oget rec "timestamp" = .vStr ts ∧
            oget rec "result" = v ∧
            "params" ∈ objKeys rec ∧
            "phaseResults" ∈ objKeys rec)) := by
  simp only [executeCommand8]
  cases hlk : orch8Workflows.lookup (categoryOf command) with
  | none =>
    simp only [hlk]
    exact ⟨fun _ => by trivial, fun s hs hne =>
      ⟨fun e _ => by trivial, fun v hv => by simp at hv⟩⟩
  | some wf =>
    simp only [hlk]
    split
    · exact ⟨fun _ => by trivial, fun s hs hne =>
        ⟨fun e _ => by trivial, fun v hv => by simp at hv⟩⟩
    · cases hres : (executePipeline wf.handler
          ⟨orchStore1 store ts command params, settings, ts, fsE, ad⟩
          (buildCtx0 (orchStore1 store ts command params) command params)).res with
      | error e0 =>
        simp only [hres]
        exact ⟨fun _ => by trivial, fun s hs hne =>
          ⟨fun e _ => by trivial, fun v hv => by simp at hv⟩⟩
      | ok t =>
        obtain ⟨cfin, result⟩ := t
        simp only [hres]
        have hsavepres : oget cfin "save" =
            oget (buildCtx0 (orchStore1 store ts command params) command params) "save" :=
          executePipeline_oget wf.handler "save" (by decide)
            (orch8_handler_preservesKey wf _ hlk "save" (by decide)) _ _ cfin result hres
        have hcmdpres : oget cfin "command" =
            oget (buildCtx0 (orchStore1 store ts command params) command params) "command" :=
          executePipeline_oget wf.handler "command" (by decide)
            (orch8_handler_preservesKey wf _ hlk "command" (by decide)) _ _ cfin result hres
        constructor
        · intro hsf
          have hsu : oget cfin "save" = .vUndefined := by
            rw [hsavepres, buildCtx0_oget_save]
            unfold orchSaveOpt
            rw [if_neg (by simp [hsf])]
          show (if truthy (oget cfin "save") = true then _ else []) = []
          rw [hsu]
          simp [truthy]
        · intro s hs hne
          have hsv : oget cfin "save" = .vStr s := by
            rw [hsavepres, buildCtx0_oget_save]
            unfold orchSaveOpt
            rw [hs, if_pos (by simp [truthy, hne])]
          refine ⟨fun e he => by simp at he, fun v hv => ?_⟩
          have hveq : result = v := Except.ok.inj hv
          subst hveq
          refine ⟨[("command", oget cfin "command"), ("params", oget cfin "params"),
                   ("globalParams", .vObj (globalParamsObj params)),
                   ("phaseResults", if truthy (oget cfin "phaseResults") = true then
                      oget cfin "phaseResults" else .vObj []),
                   ("result", result), ("timestamp", .vStr ts)],
                  ?_, ?_, ?_, ?_, ?_, ?_⟩
          · show (if truthy (oget cfin "save") = true then _ else []) = _
            rw [hsv, if_pos (by simp [truthy, hne])]
            rfl
          · show oget _ "command" = _
            rw [show oget [("command", oget cfin "command"), ("params", oget cfin "params"),
                   ("globalParams", .vObj (globalParamsObj params)),
                   ("phaseResults", if truthy (oget cfin "phaseResults") = true then
                      oget cfin "phaseResults" else .vObj []),
                   ("result", result), ("timestamp", .vStr ts)] "command" =
                 oget cfin "command" from rfl,
                hcmdpres, buildCtx0_oget_command]
          · rfl
          · rfl
          · simp [objKeys]
          · simp [objKeys]

/-- Witness for the C9 theorem: a `system:health` dispatch with
`save = "/t/x.json"` writes exactly one record there; a dispatch without
`save` writes nothing. -/
theorem c9_save_trace_witness :
    (∃ rec : JSObj,
      (executeCommand8 [] loadDefaultSettings "T0" noFs [] "system:health"
        [("save", .vStr "/t/x.json")]).writes = [("/t/x.json", .vObj rec)] ∧
      oget rec "command" = .vStr "system:health" ∧
      oget rec "timestamp" = .vStr "T0" ∧
      oget rec "result" = okValueD (executeCommand8 [] loadDefaultSettings "T0" noFs []
        "system:health" [("save", .vStr "/t/x.json")]).result ∧
      "params" ∈ objKeys rec ∧ "phaseResults" ∈ objKeys rec) ∧
    (executeCommand8 [] loadDefaultSettings "T0" noFs [] "message:new"
      [("message", .vStr "hi")]).writes = [] := by
  have h1 := (c9_save_trace [] loadDefaultSettings "T0" noFs [] "system:health"
    [("save", .vStr "/t/x.json")]).2 "/t/x.json" rfl (by decide)
  have h2 := (c9_save_trace [] loadDefaultSettings "T0" noFs [] "message:new"
    [("message", .vStr "hi")]).1 (by decide)
  have hok : (executeCommand8 [] loadDefaultSettings "T0" noFs [] "system:health"
      [("save", .vStr "/t/x.json")]).result =
      .ok (okValueD (executeCommand8 [] loadDefaultSettings "T0" noFs [] "system:health"
        [("save", .vStr "/t/x.json")]).result) := by rfl
  exact ⟨h1.2 _ hok, h2⟩

/-- C10:  The `part_007` orchestrator's effective registry contains
exactly the categories `message` and `system` — the second `initialize`
method definition shadows the first under JS class semantics, so the imported
`EmailWorkflow`, `OutputWorkflow` and `AgentWorkflow` are never registered —
and every dispatch of an `email:*`, `output:*` or `agent:*` command through
it throws the unknown-category error. -/
theorem c10_shadowed_initialize :
    (∀ cat, (orch7Workflows.lookup cat).isSome = true ↔
       (cat = "message" ∨ cat = "system")) ∧
    (∀ (settings : Settings) (ts : String) (fsE : String → Bool)
       (ad : List (String × String)) (command : String) (params : JSObj),
       (categoryOf command = "email" ∨ categoryOf command = "output" ∨
        categoryOf command = "agent") →
       (executeCommand7 settings ts fsE ad command params).result =
         .error ("No workflow found for category: " ++ categoryOf command)) := by
  constructor
  · intro cat
    simp only [orch7Workflows, List.lookup]
    by_cases h1 : cat = "message"
    · simp [h1]
    · by_cases h2 : cat = "system"
      · simp [h1, h2]
      · have hb1 : (cat == "message") = false := by simpa using h1
        have hb2 : (cat == "system") = false := by simpa using h2
        simp [hb1, hb2, h1, h2]
  · intro settings ts fsE ad command params h
    have hnone : orch7Workflows.lookup (categoryOf command) = none := by
      rcases h with h | h | h <;> rw [h] <;> rfl
    simp only [executeCommand7, hnone]

/-- Witness for the C10 theorem at concrete categories and a concrete
`email:*` dispatch. -/
theorem c10_shadowed_initialize_witness :
    (orch7Workflows.lookup "message").isSome = true ∧
    ¬(orch7Workflows.lookup "output").isSome = true ∧
    (executeCommand7 loadDefaultSettings "T0" noFs [] "email:send" []).result =
      .error "No workflow found for category: email" := by
  have h := c10_shadowed_initialize
  refine ⟨(h.1 "message").mpr (.inl rfl), ?_, ?_⟩
  · intro hx
    rcases (h.1 "output").mp hx with hc | hc <;> simp at hc
  · exact h.2 loadDefaultSettings "T0" noFs [] "email:send" [] (.inl (by rfl))

end AgentForger
